import Mathlib

/-!
Verification of the BLE multi-advertising manager
(stack/btm/btm_ble_multi_adv.cc).

The C++ file is an asynchronous, callback-driven manager for a table of
controller advertising instances.  We give a shallow embedding:

* `MgrState` is the manager state (the `adv_inst` table, `inst_count`,
  the compile/runtime privacy configuration and the controller address).
* An asynchronous run is modelled as a function
  `Step = MgrState → Comps → MgrState × Comps × List Event`.
  `Comps` is the list of pending HCI command completions, consumed in
  order: every HCI command that is issued with a completion handler pops
  the next `(status, granted_tx_power)` pair and runs its handler on it;
  if the list is exhausted the run stops (the completion has not been
  delivered yet).  This collapses the single-threaded asynchronous
  execution of the source into a deterministic function of the
  completion statuses.
* `Event` is the observable trace: HCI commands issued, user callbacks
  run, alarms armed and cancelled.  User callbacks are identified by
  `CbTag`s; the nested C++ lambdas of the commissioning pipelines are
  translated to named Lean continuation functions (`sa_on...`,
  `sas_on...`), one per lambda.

External collaborators (the HCI transport, the AES primitive behind
SMP_Encrypt, the random generator behind btm_gen_resolvable_private_addr
and the alarm service) are modelled as inputs: completion statuses,
the 8 random bytes, the encryption output bytes, and explicit
`FireTimeoutTimer` invocations.
-/

namespace BtmBleMultiAdv

/-- Maximum advertising-data chunk size, `ADV_DATA_LEN_MAX` in the source. -/
def ADV_DATA_LEN_MAX : Nat := 251

/-- Fragment operation codes, local constants of
`DivideAndSendDataRecursively` in the source. -/
def INTERMEDIATE : Nat := 0x00

/-- First fragment of fragmented data. -/
def FIRST : Nat := 0x01

/-- Last fragment of fragmented data. -/
def LAST : Nat := 0x02

/-- Complete extended advertising data. -/
def COMPLETE : Nat := 0x03

/-- Modelled from the spec: status code `0 = SUCCESS`
(`BTM_BLE_MULTI_ADV_SUCCESS`; the constant lives in a header outside this
repository snapshot). -/
def BTM_BLE_MULTI_ADV_SUCCESS : Nat := 0

/-- Modelled from the spec: the generic `FAILURE` status
(`BTM_BLE_MULTI_ADV_FAILURE`; header constant, value outside the snapshot;
only its being non-zero matters below). -/
def BTM_BLE_MULTI_ADV_FAILURE : Nat := 1

/-- Modelled from the spec: `TOO_MANY_ADVERTISERS`
(`ADVERTISE_FAILED_TOO_MANY_ADVERTISERS`, header constant). -/
def ADVERTISE_FAILED_TOO_MANY_ADVERTISERS : Nat := 2

/-- Modelled from the spec: EIR type code for the Flags AD structure
(`HCI_EIR_FLAGS_TYPE`). -/
def HCI_EIR_FLAGS_TYPE : Nat := 0x01

/-- Modelled from the spec: EIR type code for the TX power level AD
structure (`HCI_EIR_TX_POWER_LEVEL_TYPE`). -/
def HCI_EIR_TX_POWER_LEVEL_TYPE : Nat := 0x0A

/-- Modelled from the spec: general-discoverable flags value
(`BTM_GENERAL_DISCOVERABLE`). -/
def BTM_GENERAL_DISCOVERABLE : Nat := 0x02

/-- Modelled from the spec: limited-discoverable flags value
(`BTM_LIMITED_DISCOVERABLE`). -/
def BTM_LIMITED_DISCOVERABLE : Nat := 0x01

/-- Modelled from the spec: mask of the two class bits of a private
address (spec 4.3 step 1 clears bit 7 and sets bit 6 of prand byte 2;
`BLE_RESOLVE_ADDR_MASK` is a header constant). -/
def BLE_RESOLVE_ADDR_MASK : Nat := 0xC0

/-- Modelled from the spec: the resolvable-class marker bit
(`BLE_RESOLVE_ADDR_MSB`, bit 6). -/
def BLE_RESOLVE_ADDR_MSB : Nat := 0x40

/-- Modelled from the spec: address-type enum values (`BLE_ADDR_PUBLIC`,
`BLE_ADDR_RANDOM`; standard HCI encoding). -/
def BLE_ADDR_PUBLIC : Nat := 0

/-- Random address type. -/
def BLE_ADDR_RANDOM : Nat := 1

/-- Modelled from the spec: the RPA rotation interval in milliseconds
(`BTM_BLE_PRIVATE_ADDR_INT_MS`, typically 15 minutes). -/
def BTM_BLE_PRIVATE_ADDR_INT_MS : Int := 900000

/-- Modelled from the spec: highest multi-advertising handle
(`BTM_BLE_MULTI_ADV_MAX`, header constant; its value is irrelevant to
the theorems below). -/
def BTM_BLE_MULTI_ADV_MAX : Nat := 16

/-- Privacy configuration: `sptPrivacyOn` is `BLE_PRIVACY_SPT == TRUE`
with `BTM_BleLocalPrivacyEnabled()` true, `sptPrivacyOff` the same build
with local privacy disabled at runtime, and `noSpt` a build without
`BLE_PRIVACY_SPT` (the `#else` branch of `RegisterAdvertiser`). -/
inductive PrivacyConfig
  | sptPrivacyOn
  | sptPrivacyOff
  | noSpt
deriving DecidableEq, Repr

/-- Identifies which callback value a `MultiAdvCb`-shaped argument is:
the current operation's user callback, the user's timeout callback,
`DoNothing`, or the user RegisterCb partially applied to `inst_id`
(`Bind(std::move(timeout_cb), inst_id)` in `StartAdvertisingSetFinish`). -/
inductive CbTag
  | user
  | userTimeout
  | doNothing
  | userRegisterBound (instId : Nat)
deriving DecidableEq, Repr

/-- State of an instance's one-shot `timeout_timer`: it exists
(`alarm_new` has run), may be armed, carries the scheduled period and
the `timeout_cb` captured in the scheduled closure. -/
structure TimeoutTimer where
  armed : Bool
  periodMs : Int
  timeoutCb : CbTag
deriving DecidableEq, Repr

/-- One slot of the `adv_inst` table (`struct AdvertisingInstance`).
The periodic `adv_raddr_timer` alarm is modelled by its armed flag. -/
structure AdvertisingInstance where
  inst_id : Nat
  in_use : Bool
  advertising_event_properties : Nat
  adv_raddr_timer_armed : Bool
  tx_power : Int
  timeout_s : Int
  timeout_timer : Option TimeoutTimer
  own_address_type : Nat
  own_address : List Nat
deriving DecidableEq, Repr, Inhabited

/-- Fresh instance as built by the `AdvertisingInstance(int inst_id)`
constructor (invoked from `ReadInstanceCountCb`). -/
def initInstance (i : Nat) : AdvertisingInstance :=
  { inst_id := i, in_use := false, advertising_event_properties := 0,
    adv_raddr_timer_armed := false, tx_power := 0, timeout_s := 0,
    timeout_timer := none, own_address_type := 0,
    own_address := [0, 0, 0, 0, 0, 0] }

/-- Advertising parameters (`tBTM_BLE_ADV_PARAMS`; the struct is declared
in a header outside the snapshot, fields modelled from the spec and from
the uses in `SetParameters`). -/
structure AdvParams where
  advertising_event_properties : Nat
  adv_int_min : Nat
  adv_int_max : Nat
  channel_map : Nat
  adv_filter_policy : Nat
  tx_power : Int
  primary_advertising_phy : Nat
  secondary_advertising_phy : Nat
  scan_request_notification_enable : Nat
deriving DecidableEq, Repr, Inhabited

/-- Periodic advertising parameters (`tBLE_PERIODIC_ADV_PARAMS`,
modelled from the uses in `SetPeriodicAdvertisingParameters` and
`StartAdvertisingSet`). -/
structure PeriodicParams where
  enable : Bool
  min_interval : Nat
  max_interval : Nat
  periodic_advertising_properties : Nat
deriving DecidableEq, Repr, Inhabited

/-- Manager state (`BleAdvertisingManagerImpl`): the instance table,
`inst_count`, the privacy configuration and the controller's public
address. -/
structure MgrState where
  cfg : PrivacyConfig
  controllerAddress : List Nat
  adv_inst : List AdvertisingInstance
  inst_count : Nat
deriving DecidableEq, Repr

/-- Initial manager state after `ReadInstanceCountCb n`. -/
def initState (cfg : PrivacyConfig) (addr : List Nat) (n : Nat) : MgrState :=
  { cfg := cfg, controllerAddress := addr,
    adv_inst := (List.range n).map initInstance, inst_count := n }

/-- HCI commands as issued through `BleAdvertiserHciInterface`
(callbacks excluded; their completions are the `Comps` inputs). -/
inductive HciCmd
  | setParameters (instId props intMin intMax chanMap ownAddrType : Nat)
      (ownAddr : List Nat) (peerAddrType : Nat) (peerAddr : List Nat)
      (filterPolicy : Nat) (txPower : Int)
      (primaryPhy secondaryMaxSkip secondaryPhy sid scanReqNotify : Nat)
  | setRandomAddress (instId : Nat) (addr : List Nat)
  | setAdvertisingData (instId operation fragPref len : Nat) (data : List Nat)
  | setScanResponseData (instId operation fragPref len : Nat) (data : List Nat)
  | setPeriodicAdvertisingParameters (instId minInterval maxInterval properties : Nat)
  | setPeriodicAdvertisingData (instId operation len : Nat) (data : List Nat)
  | setPeriodicAdvertisingEnable (enable instId : Nat)
  | enable (en : Bool) (instId duration maxExtAdvEvents : Nat)
deriving DecidableEq, Repr

/-- Observable events of a run. `unregisterCalled` marks entry into
`Unregister` (its externally visible effects follow it in the trace);
`cb` is the invocation of a user-level callback with its arguments;
`aclUpdateConnAddr` is the `btm_acl_update_conn_addr` external hook. -/
inductive Event
  | hci (cmd : HciCmd)
  | cb (tag : CbTag) (args : List Int)
  | alarmSetRaddr (instId : Nat) (periodMs : Int)
  | alarmSetTimeout (instId : Nat) (periodMs : Int)
  | alarmCancelRaddr (instId : Nat)
  | alarmCancelTimeout (instId : Nat)
  | unregisterCalled (instId : Nat)
  | aclUpdateConnAddr (connHandle : Nat) (addr : List Nat)
deriving DecidableEq, Repr

/-- Pending HCI completions: `(status, granted_tx_power)`; the second
component is only read by the `SetParameters` completion. -/
abbrev Comps := List (Nat × Int)

/-- A step of execution: given the manager state and the pending
completions, produce the final state, the unconsumed completions and the
emitted trace. -/
abbrev Step := MgrState → Comps → MgrState × Comps × List Event

/-- Read the table (`adv_inst[i]`; out-of-range reads, undefined
behaviour in C++, return the default instance). -/
def getInst (st : MgrState) (i : Nat) : AdvertisingInstance :=
  st.adv_inst.getD i default

/-- Write the table at index `i` (no-op when out of range). -/
def setInst (st : MgrState) (i : Nat) (inst : AdvertisingInstance) : MgrState :=
  { st with adv_inst := st.adv_inst.set i inst }

/-- Run a user callback identified by a tag with a single status
argument (a `MultiAdvCb`). -/
def tagCont (t : CbTag) : Nat → Step := fun status st comps =>
  (st, comps, [Event.cb t [(status : Int)]])

/-- The user `RegisterCb` of the public `Register` API as a canonical
trace-emitting continuation. -/
def userRegCont (instId status : Nat) : Step := fun st comps =>
  (st, comps, [Event.cb CbTag.user [(instId : Int), (status : Int)]])

/-- Extract the HCI commands of a trace, in order. -/
def hciEvents (evs : List Event) : List HciCmd :=
  evs.filterMap fun e => match e with
    | .hci cmd => some cmd
    | _ => none

/-- Extract the user-callback invocations of a trace, in order. -/
def cbEvents (evs : List Event) : List (CbTag × List Int) :=
  evs.filterMap fun e => match e with
    | .cb t a => some (t, a)
    | _ => none

/-- Predicate: all pending completions have status 0. -/
def allZeroSt (comps : Comps) : Prop := ∀ p ∈ comps, p.1 = 0

instance (comps : Comps) : Decidable (allZeroSt comps) := by
  unfold allZeroSt; infer_instance

/-- Number of allocated instances. -/
def countInUse (st : MgrState) : Nat :=
  (st.adv_inst.filter fun p => p.in_use).length

/-- Translation of `is_legacy_connectable`. -/
def is_legacy_connectable (advertising_event_properties : Nat) : Bool :=
  advertising_event_properties &&& 0x10 ≠ 0 ∧
    advertising_event_properties &&& 0x01 ≠ 0

/-- Conversion of the `int8_t tx_power` to the `uint8_t` stored into the
data vector by `data[i + 2] = adv_inst[inst_id].tx_power`. -/
def txPowerByte (t : Int) : Nat := (t % 256).toNat

/-- Translation of the TX-power rewriting loop of `SetData`
(`while (i < data.size()) { ... i += data[i] + 1; }`).  The write of
iteration `i` lands at `i + 2`; the stride is read back from the
(possibly updated) vector, exactly as the source does.  `fuel` is the
explicit loop variant `data.length - i` (the index grows by at least one
per iteration, so `data.length` steps always suffice and the fuel-0 case
is unreachable from `fillTxPower`). -/
def fillTxPowerGo (txPower : Int) : Nat → List Nat → Nat → List Nat
  | 0, data, _ => data
  | fuel + 1, data, i =>
    if i < data.length then
      let ty := data.getD (i + 1) 0
      let data' := if ty = HCI_EIR_TX_POWER_LEVEL_TYPE then
          data.set (i + 2) (txPowerByte txPower)
        else data
      fillTxPowerGo txPower fuel data' (i + data'.getD i 0 + 1)
    else data

/-- Entry point of the rewriting loop (`i = 0`). -/
def fillTxPower (txPower : Int) (data : List Nat) : List Nat :=
  fillTxPowerGo txPower data.length data 0

/-- Pure preprocessing performed by `SetData` before handing the payload
to the fragmenter: prepend the Flags AD structure for non-scan-response
data on a legacy-connectable set, then run the TX-power rewriting loop. -/
def setDataPreprocess (pInst : AdvertisingInstance) (isScanRsp : Bool)
    (data : List Nat) : List Nat :=
  let data1 :=
    if ¬isScanRsp ∧ is_legacy_connectable pInst.advertising_event_properties then
      let flagsVal := if pInst.timeout_s ≠ 0 then BTM_LIMITED_DISCOVERABLE
        else BTM_GENERAL_DISCOVERABLE
      2 :: HCI_EIR_FLAGS_TYPE :: flagsVal :: data
    else data
  fillTxPower pInst.tx_power data1

/-- Translation of `SetDataAdvDataSender` as a pure command constructor
(the fragment preference argument is the literal `0x01` of the source). -/
def SetDataAdvDataSender (isScanRsp : Bool) (instId operation len : Nat)
    (chunk : List Nat) : HciCmd :=
  if isScanRsp then .setScanResponseData instId operation 0x01 len chunk
  else .setAdvertisingData instId operation 0x01 len chunk

/-- Sender used by `SetPeriodicAdvertisingData`
(`BleAdvertiserHciInterface::SetPeriodicAdvertisingData`). -/
def periodicDataSender (instId operation len : Nat) (chunk : List Nat) : HciCmd :=
  .setPeriodicAdvertisingData instId operation len chunk

/-- Translation of the static `DivideAndSendDataRecursively`.  Each
invocation of the sender issues one HCI data command and waits for its
completion, which feeds the recursive call's `status`; `done_cb` runs on
error or when the end of the payload is reached. -/
def DivideAndSendDataRecursively (isFirst : Bool) (instId : Nat)
    (data : List Nat) (offset : Nat) (doneCb : Nat → Step)
    (mk : Nat → Nat → Nat → List Nat → HciCmd) (status : Nat) :
    MgrState → Comps → MgrState × Comps × List Event := fun st comps =>
  if status ≠ 0 ∨ (¬isFirst ∧ offset = data.length) then
    doneCb status st comps
  else
    let moreThanOnePacket := ADV_DATA_LEN_MAX < data.length - offset
    let operation := if isFirst then (if moreThanOnePacket then FIRST else COMPLETE)
      else (if moreThanOnePacket then INTERMEDIATE else LAST)
    let len := if moreThanOnePacket then ADV_DATA_LEN_MAX else data.length - offset
    let ev := Event.hci (mk instId operation len ((data.drop offset).take len))
    match comps with
    | [] => (st, [], [ev])
    | (s, _) :: rest =>
      let (st', c', evs) :=
        DivideAndSendDataRecursively false instId data (offset + len) doneCb mk s st rest
      (st', c', ev :: evs)

/-- Translation of `DivideAndSendData`. -/
def DivideAndSendData (instId : Nat) (data : List Nat) (doneCb : Nat → Step)
    (mk : Nat → Nat → Nat → List Nat → HciCmd) : Step :=
  DivideAndSendDataRecursively true instId data 0 doneCb mk 0

/-- Length of the fragment starting at `offset`
(`moreThanOnePacket ? ADV_DATA_LEN_MAX : dataSize - offset`). -/
def fragLen (data : List Nat) (offset : Nat) : Nat :=
  if ADV_DATA_LEN_MAX < data.length - offset then ADV_DATA_LEN_MAX
  else data.length - offset

/-- Operation code of the fragment starting at `offset`. -/
def fragOp (data : List Nat) (isFirst : Bool) (offset : Nat) : Nat :=
  if isFirst then
    (if ADV_DATA_LEN_MAX < data.length - offset then FIRST else COMPLETE)
  else
    (if ADV_DATA_LEN_MAX < data.length - offset then INTERMEDIATE else LAST)

/-- Specification-side list of fragments `(operation, chunk)` that the
success path of the fragmenter emits, starting from `offset`.  `fuel`
bounds the number of fragments; `data.length + 1` always suffices
(every fragment but the first consumes at least one payload byte). -/
def fragmentsFromGo (data : List Nat) : Nat → Bool → Nat → List (Nat × List Nat)
  | fuel, isFirst, offset =>
    if ¬isFirst ∧ data.length ≤ offset then []
    else
      match fuel with
      | 0 => []
      | fuel + 1 =>
        (fragOp data isFirst offset,
          (data.drop offset).take (fragLen data offset)) ::
          fragmentsFromGo data fuel false (offset + fragLen data offset)

/-- All fragments of a payload. -/
def fragments (data : List Nat) : List (Nat × List Nat) :=
  fragmentsFromGo data (data.length + 1) true 0

/-- Specification-side loop: send the fragment commands one by one,
consuming one completion per command.  Returns the emitted events and
`some (status, leftover)` when the done callback would run with
`status`, or `none` when the completions ran out mid-stream. -/
def sendLoop (mkEv : Nat → Nat → List Nat → Event)
    (frags : List (Nat × List Nat)) (comps : Comps) :
    List Event × Option (Nat × Comps) :=
  match frags with
  | [] => ([], some (0, comps))
  | (op, chunk) :: rest =>
    let ev := mkEv op chunk.length chunk
    match comps with
    | [] => ([ev], none)
    | (s, _) :: comps' =>
      if s ≠ 0 then ([ev], some (s, comps'))
      else
        let (evs, r) := sendLoop mkEv rest comps'
        (ev :: evs, r)

/-- Glue a `sendLoop` outcome onto a continuation, mirroring how
`DivideAndSendDataRecursively` finishes. -/
def assembleLoop (k : Nat → Step) (st : MgrState) :
    List Event × Option (Nat × Comps) → MgrState × Comps × List Event
  | (evs, none) => (st, [], evs)
  | (evs, some (s, comps')) =>
    let (st', c', evs') := k s st comps'
    (st', c', evs ++ evs')

/-- Translation of `OnRpaGenerationComplete`: mask the class bits of
`rand[2]`, write the masked prand into `own_address[0..2]` (reversed),
write the low three encryption-output bytes into `own_address[3..5]`
(reversed, hash as the LSB of the address), then run the continuation.
`rand` are the 8 bytes delivered by `btm_gen_resolvable_private_addr`;
`hashOut` are the `param_buf` bytes of the external `SMP_Encrypt` of the
masked prand under the device IRK (the AES primitive is out of scope and
its output is an input here). -/
def OnRpaGenerationComplete (instId : Nat) (rand hashOut : List Nat)
    (k : Step) : Step := fun st comps =>
  let pInst := getInst st instId
  let rand2 := (rand.getD 2 0 &&& (255 - BLE_RESOLVE_ADDR_MASK)) ||| BLE_RESOLVE_ADDR_MSB
  let a := pInst.own_address
  let a := a.set 2 (rand.getD 0 0)
  let a := a.set 1 (rand.getD 1 0)
  let a := a.set 0 rand2
  let a := a.set 5 (hashOut.getD 0 0)
  let a := a.set 4 (hashOut.getD 1 0)
  let a := a.set 3 (hashOut.getD 2 0)
  k (setInst st instId { pInst with own_address := a }) comps

/-- Index of the first table slot with `in_use == false` (the scan of
the `RegisterAdvertiser` loop). -/
def firstFree : List AdvertisingInstance → Option Nat
  | [] => none
  | p :: rest => if p.in_use then (firstFree rest).map (· + 1) else some 0

/-- Translation of `RegisterAdvertiser`.  The loop scans the first
`inst_count` slots; on a free slot it sets `in_use` and then branches on
the privacy configuration: with privacy on it generates an RPA (the
`rand`/`hashOut` inputs), arms `adv_raddr_timer` and runs the callback
with SUCCESS; in a privacy build with privacy disabled at runtime the
source falls through without running the callback; without privacy
support it copies the controller's public address and runs the
callback.  With no free slot the callback gets
`(0xFF, TOO_MANY_ADVERTISERS)`. -/
def RegisterAdvertiser (cb : Nat → Nat → Step) (rand hashOut : List Nat) :
    Step := fun st comps =>
  match firstFree (st.adv_inst.take st.inst_count) with
  | some i =>
    let st1 := setInst st i { getInst st i with in_use := true }
    match st.cfg with
    | .sptPrivacyOn =>
      let st2 := setInst st1 i { getInst st1 i with own_address_type := BLE_ADDR_RANDOM }
      OnRpaGenerationComplete i rand hashOut
        (fun st' comps' =>
          let st'' := setInst st' i { getInst st' i with adv_raddr_timer_armed := true }
          let (stf, cf, evs) := cb i BTM_BLE_MULTI_ADV_SUCCESS st'' comps'
          (stf, cf, Event.alarmSetRaddr i BTM_BLE_PRIVATE_ADDR_INT_MS :: evs))
        st2 comps
    | .sptPrivacyOff => (st1, comps, [])
    | .noSpt =>
      let st2 := setInst st1 i
        { getInst st1 i with
          own_address_type := BLE_ADDR_PUBLIC
          own_address := st.controllerAddress }
      cb i BTM_BLE_MULTI_ADV_SUCCESS st2 comps
  | none => cb 0xFF ADVERTISE_FAILED_TOO_MANY_ADVERTISERS st comps

/-- Outcome of the synchronous part of `RegisterAdvertiser`: the chosen
slot and the state just before the success callback runs (`none` when
the table is full). -/
def registerOutcome (st : MgrState) (rand hashOut : List Nat) :
    Option (Nat × MgrState) :=
  match firstFree (st.adv_inst.take st.inst_count) with
  | some i =>
    let st1 := setInst st i { getInst st i with in_use := true }
    match st.cfg with
    | .sptPrivacyOn =>
      let st2 := setInst st1 i { getInst st1 i with own_address_type := BLE_ADDR_RANDOM }
      let pInst := getInst st2 i
      let rand2 := (rand.getD 2 0 &&& (255 - BLE_RESOLVE_ADDR_MASK)) ||| BLE_RESOLVE_ADDR_MSB
      let a := pInst.own_address
      let a := a.set 2 (rand.getD 0 0)
      let a := a.set 1 (rand.getD 1 0)
      let a := a.set 0 rand2
      let a := a.set 5 (hashOut.getD 0 0)
      let a := a.set 4 (hashOut.getD 1 0)
      let a := a.set 3 (hashOut.getD 2 0)
      let st3 := setInst st2 i { pInst with own_address := a }
      some (i, setInst st3 i { getInst st3 i with adv_raddr_timer_armed := true })
    | .sptPrivacyOff => some (i, st1)
    | .noSpt =>
      some (i, setInst st1 i
        { getInst st1 i with
          own_address_type := BLE_ADDR_PUBLIC
          own_address := st.controllerAddress })
  | none => none

/-- Translation of `SetParameters`.  An out-of-range `inst_id` returns
without running the callback; an unused instance runs the callback with
FAILURE; otherwise the instance records the (truncated, `uint8_t`)
event properties and the requested TX power and the HCI command is
issued, its completion carrying `(status, granted_tx_power)`. -/
def SetParameters (instId : Nat) (pParams : AdvParams)
    (cb : Nat → Int → Step) : Step := fun st comps =>
  if st.inst_count ≤ instId then (st, comps, [])
  else
    let pInst := getInst st instId
    if ¬pInst.in_use then cb BTM_BLE_MULTI_ADV_FAILURE 0 st comps
    else
      let st1 := setInst st instId
        { pInst with
          advertising_event_properties := pParams.advertising_event_properties % 256
          tx_power := pParams.tx_power }
      let pInst1 := getInst st1 instId
      let ev := Event.hci (.setParameters instId
        pParams.advertising_event_properties pParams.adv_int_min
        pParams.adv_int_max pParams.channel_map pInst1.own_address_type
        pInst1.own_address 0x00 [0, 0, 0, 0, 0, 0] pParams.adv_filter_policy
        pInst1.tx_power pParams.primary_advertising_phy 0x01
        pParams.secondary_advertising_phy 0x01
        pParams.scan_request_notification_enable)
      match comps with
      | [] => (st1, [], [ev])
      | (s, tx) :: rest =>
        let (st', c', evs) := cb s tx st1 rest
        (st', c', ev :: evs)

/-- Translation of `SetData`: bounds check (no `in_use` check in the
source), Flags prepending and TX-power rewrite, then fragmentation via
`DivideAndSendData` with the advertising/scan-response sender. -/
def SetData (instId : Nat) (isScanRsp : Bool) (data : List Nat)
    (cb : Nat → Step) : Step := fun st comps =>
  if st.inst_count ≤ instId then (st, comps, [])
  else
    DivideAndSendData instId
      (setDataPreprocess (getInst st instId) isScanRsp data) cb
      (SetDataAdvDataSender isScanRsp) st comps

/-- Translation of `SetPeriodicAdvertisingParameters` (no validation in
the source). -/
def SetPeriodicAdvertisingParameters (instId : Nat) (params : PeriodicParams)
    (cb : Nat → Step) : Step := fun st comps =>
  let ev := Event.hci (.setPeriodicAdvertisingParameters instId
    params.min_interval params.max_interval
    params.periodic_advertising_properties)
  match comps with
  | [] => (st, [], [ev])
  | (s, _) :: rest =>
    let (st', c', evs) := cb s st rest
    (st', c', ev :: evs)

/-- Translation of `SetPeriodicAdvertisingData`: raw fragmentation, no
preprocessing. -/
def SetPeriodicAdvertisingData (instId : Nat) (data : List Nat)
    (cb : Nat → Step) : Step :=
  DivideAndSendData instId data cb periodicDataSender

/-- Translation of `SetPeriodicAdvertisingEnable` (the `uint8_t enable`
argument is forwarded to the HCI command). -/
def SetPeriodicAdvertisingEnable (instId enable : Nat) (cb : Nat → Step) :
    Step := fun st comps =>
  let ev := Event.hci (.setPeriodicAdvertisingEnable enable instId)
  match comps with
  | [] => (st, [], [ev])
  | (s, _) :: rest =>
    let (st', c', evs) := cb s st rest
    (st', c', ev :: evs)

/-- Translation of `EnableWithTimerCb`: run `enable_cb` with the HCI
status first, then record `timeout_s`, create the one-shot
`timeout_timer` and arm it for `timeout_s * 1000` ms with a closure
that will call `Enable(inst_id, disable, timeout_cb, 0, DoNothing)`
(see `FireTimeoutTimer`). -/
def EnableWithTimerCb (instId : Nat) (enableCb : Nat → Step)
    (timeoutS : Int) (timeoutCb : CbTag) (status : Nat) : Step :=
  fun st comps =>
  let (st1, c1, evs1) := enableCb status st comps
  let pInst := getInst st1 instId
  let st2 := setInst st1 instId
    { pInst with
      timeout_s := timeoutS
      timeout_timer := some { armed := true, periodMs := timeoutS * 1000, timeoutCb := timeoutCb } }
  (st2, c1, evs1 ++ [Event.alarmSetTimeout instId (timeoutS * 1000)])

/-- Translation of `Enable`.  An out-of-range `inst_id` returns without
running the callback; an unused instance runs `cb` with FAILURE.  With
`enable && timeout_s` the HCI command completes into
`EnableWithTimerCb`; otherwise a live `timeout_timer` is cancelled and
freed and the HCI command completes directly into `cb`. -/
def Enable (instId : Nat) (en : Bool) (cb : Nat → Step) (timeoutS : Int)
    (timeoutCb : CbTag) : Step := fun st comps =>
  if st.inst_count ≤ instId then (st, comps, [])
  else
    let pInst := getInst st instId
    if ¬pInst.in_use then cb BTM_BLE_MULTI_ADV_FAILURE st comps
    else if en ∧ timeoutS ≠ 0 then
      let ev := Event.hci (.enable en instId 0x0000 0x00)
      match comps with
      | [] => (st, [], [ev])
      | (s, _) :: rest =>
        let (st', c', evs) :=
          EnableWithTimerCb instId cb timeoutS timeoutCb s st rest
        (st', c', ev :: evs)
    else
      let (st1, cancelEvs) :=
        if pInst.timeout_timer.isSome then
          (setInst st instId { pInst with timeout_timer := none },
            [Event.alarmCancelTimeout instId])
        else (st, ([] : List Event))
      let ev := Event.hci (.enable en instId 0x0000 0x00)
      match comps with
      | [] => (st1, [], cancelEvs ++ [ev])
      | (s, _) :: rest =>
        let (st', c', evs) := cb s st1 rest
        (st', c', cancelEvs ++ ev :: evs)

/-- Translation of `Unregister`: bounds check, fire-and-forget HCI
`Enable(false)` (its `DoNothing` completion is not modelled as a pending
completion), cancel `adv_raddr_timer`, clear `in_use`.  The
`timeout_timer` is not touched. -/
def Unregister (instId : Nat) : Step := fun st comps =>
  if st.inst_count ≤ instId then
    (st, comps, [Event.unregisterCalled instId])
  else
    let pInst := getInst st instId
    let st1 := setInst st instId
      { pInst with adv_raddr_timer_armed := false, in_use := false }
    (st1, comps,
      [Event.unregisterCalled instId, Event.hci (.enable false instId 0x00 0x00),
        Event.alarmCancelRaddr instId])

/-- Execution of the closure armed by `EnableWithTimerCb` when the
one-shot alarm fires: mark the alarm no longer pending and call
`Enable(inst_id, disable, timeout_cb, 0, DoNothing)` with the stored
`timeout_cb`. -/
def FireTimeoutTimer (instId : Nat) : Step := fun st comps =>
  match (getInst st instId).timeout_timer with
  | none => (st, comps, [])
  | some t =>
    if t.armed then
      let st1 := setInst st instId
        { getInst st instId with timeout_timer := some { t with armed := false } }
      Enable instId false (tagCont t.timeoutCb) 0 CbTag.doNothing st1 comps
    else (st, comps, [])

/-- Context captured by the lambdas of `StartAdvertising` (its local
`CreatorParams`; the user callback and timeout callback are the
canonical tags `CbTag.user` and `CbTag.userTimeout`). -/
structure SACreatorParams where
  inst_id : Nat
  params : AdvParams
  advertise_data : List Nat
  scan_response_data : List Nat
  timeout_s : Int
deriving DecidableEq, Repr

/-- Continuation of `StartAdvertising` on the scan-response `SetData`
completion: short-circuit on failure, else `Enable(inst_id, true, cb,
timeout_s, timeout_cb)`. -/
def sa_onScanRspData (c : SACreatorParams) (status : Nat) : Step :=
  fun st comps =>
  if status ≠ 0 then tagCont CbTag.user status st comps
  else Enable c.inst_id true (tagCont CbTag.user) c.timeout_s
    CbTag.userTimeout st comps

/-- Continuation on the advertise-data `SetData` completion. -/
def sa_onAdvData (c : SACreatorParams) (status : Nat) : Step :=
  fun st comps =>
  if status ≠ 0 then tagCont CbTag.user status st comps
  else SetData c.inst_id true c.scan_response_data (sa_onScanRspData c) st comps

/-- Continuation on the `SetRandomAddress` completion. -/
def sa_onSetRandomAddress (c : SACreatorParams) (status : Nat) : Step :=
  fun st comps =>
  if status ≠ 0 then tagCont CbTag.user status st comps
  else SetData c.inst_id false c.advertise_data (sa_onAdvData c) st comps

/-- Continuation on the `SetParameters` completion: store the granted
TX power into the instance, then issue `SetRandomAddress` with the
instance's own address. -/
def sa_onSetParameters (c : SACreatorParams) (status : Nat) (txPower : Int) :
    Step := fun st comps =>
  if status ≠ 0 then tagCont CbTag.user status st comps
  else
    let st1 := setInst st c.inst_id { getInst st c.inst_id with tx_power := txPower }
    let rpa := (getInst st1 c.inst_id).own_address
    let ev := Event.hci (.setRandomAddress c.inst_id rpa)
    match comps with
    | [] => (st1, [], [ev])
    | (s, _) :: rest =>
      let (st', c', evs) := sa_onSetRandomAddress c s st1 rest
      (st', c', ev :: evs)

/-- Translation of `StartAdvertising`: the five-step chain
SetParameters, SetRandomAddress, SetData(adv), SetData(scan_rsp),
Enable(true). -/
def StartAdvertising (advertiserId : Nat) (params : AdvParams)
    (advertiseData scanResponseData : List Nat) (timeoutS : Int) : Step :=
  let c : SACreatorParams :=
    { inst_id := advertiserId, params := params,
      advertise_data := advertiseData,
      scan_response_data := scanResponseData, timeout_s := timeoutS }
  SetParameters advertiserId params (sa_onSetParameters c)

/-- Context captured by the lambdas of `StartAdvertisingSet`
(`struct CreatorParams`; the user `IdTxPowerStatusCb` and the user
`RegisterCb` timeout callback are canonical tags). -/
structure CreatorParams where
  inst_id : Nat
  params : AdvParams
  advertise_data : List Nat
  scan_response_data : List Nat
  periodic_params : PeriodicParams
  periodic_data : List Nat
  timeout_s : Int
deriving DecidableEq, Repr

/-- Failure path shared by every post-Register lambda of
`StartAdvertisingSet`: `Unregister(inst_id)` then `cb.Run(0, 0, status)`. -/
def sas_fail (c : CreatorParams) (status : Nat) : Step := fun st comps =>
  let (st1, c1, evs1) := Unregister c.inst_id st comps
  (st1, c1, evs1 ++ [Event.cb CbTag.user [0, 0, (status : Int)]])

/-- Final `Enable` completion of `StartAdvertisingSet`: on success the
user callback gets `(inst_id, tx_power, 0)` with the TX power read back
from the instance. -/
def sas_onEnable (c : CreatorParams) (status : Nat) : Step := fun st comps =>
  if status ≠ 0 then sas_fail c status st comps
  else (st, comps, [Event.cb CbTag.user
    [(c.inst_id : Int), (getInst st c.inst_id).tx_power, (status : Int)]])

/-- Translation of `StartAdvertisingSetFinish`. -/
def StartAdvertisingSetFinish (c : CreatorParams) : Step :=
  Enable c.inst_id true (sas_onEnable c) c.timeout_s
    (CbTag.userRegisterBound c.inst_id)

/-- Completion of `SetPeriodicAdvertisingEnable(true)`. -/
def sas_onPeriodicEnable (c : CreatorParams) (status : Nat) : Step :=
  fun st comps =>
  if status ≠ 0 then sas_fail c status st comps
  else StartAdvertisingSetFinish c st comps

/-- Completion of `SetPeriodicAdvertisingData`. -/
def sas_onPeriodicData (c : CreatorParams) (status : Nat) : Step :=
  fun st comps =>
  if status ≠ 0 then sas_fail c status st comps
  else SetPeriodicAdvertisingEnable c.inst_id 1 (sas_onPeriodicEnable c) st comps

/-- Completion of `SetPeriodicAdvertisingParameters`. -/
def sas_onPeriodicParams (c : CreatorParams) (status : Nat) : Step :=
  fun st comps =>
  if status ≠ 0 then sas_fail c status st comps
  else SetPeriodicAdvertisingData c.inst_id c.periodic_data
    (sas_onPeriodicData c) st comps

/-- Translation of `StartAdvertisingSetPeriodicPart`. -/
def StartAdvertisingSetPeriodicPart (c : CreatorParams) : Step :=
  SetPeriodicAdvertisingParameters c.inst_id c.periodic_params
    (sas_onPeriodicParams c)

/-- Completion of the scan-response `SetData`: branch into the periodic
part or straight to the finish. -/
def sas_onScanRspData (c : CreatorParams) (status : Nat) : Step :=
  fun st comps =>
  if status ≠ 0 then sas_fail c status st comps
  else if c.periodic_params.enable then StartAdvertisingSetPeriodicPart c st comps
  else StartAdvertisingSetFinish c st comps

/-- Completion of the advertise-data `SetData`. -/
def sas_onAdvData (c : CreatorParams) (status : Nat) : Step := fun st comps =>
  if status ≠ 0 then sas_fail c status st comps
  else SetData c.inst_id true c.scan_response_data (sas_onScanRspData c) st comps

/-- Completion of `SetRandomAddress`. -/
def sas_onSetRandomAddress (c : CreatorParams) (status : Nat) : Step :=
  fun st comps =>
  if status ≠ 0 then sas_fail c status st comps
  else SetData c.inst_id false c.advertise_data (sas_onAdvData c) st comps

/-- Completion of `SetParameters` inside `StartAdvertisingSet`. -/
def sas_onSetParameters (c : CreatorParams) (status : Nat) (txPower : Int) :
    Step := fun st comps =>
  if status ≠ 0 then sas_fail c status st comps
  else
    let st1 := setInst st c.inst_id { getInst st c.inst_id with tx_power := txPower }
    let rpa := (getInst st1 c.inst_id).own_address
    let ev := Event.hci (.setRandomAddress c.inst_id rpa)
    match comps with
    | [] => (st1, [], [ev])
    | (s, _) :: rest =>
      let (st', c', evs) := sas_onSetRandomAddress c s st1 rest
      (st', c', ev :: evs)

/-- Completion of `RegisterAdvertiser` inside `StartAdvertisingSet`: a
failed registration surfaces `(0, 0, status)` without compensation;
otherwise the obtained `advertiser_id` is stored into the context and
the chain continues with `SetParameters`. -/
def sas_onRegister (c : CreatorParams) (advertiserId status : Nat) : Step :=
  fun st comps =>
  if status ≠ 0 then (st, comps, [Event.cb CbTag.user [0, 0, (status : Int)]])
  else
    let c' := { c with inst_id := advertiserId }
    SetParameters advertiserId c'.params (sas_onSetParameters c') st comps

/-- Translation of `StartAdvertisingSet`: Register, SetParameters,
SetRandomAddress, SetData(adv), SetData(scan_rsp), optional periodic
part, Enable(true). -/
def StartAdvertisingSet (params : AdvParams)
    (advertiseData scanResponseData : List Nat)
    (periodicParams : PeriodicParams) (periodicData : List Nat)
    (timeoutS : Int) (rand hashOut : List Nat) : Step :=
  let c : CreatorParams :=
    { inst_id := 0, params := params, advertise_data := advertiseData,
      scan_response_data := scanResponseData,
      periodic_params := periodicParams, periodic_data := periodicData,
      timeout_s := timeoutS }
  RegisterAdvertiser (sas_onRegister c) rand hashOut

/-- Translation of `OnAdvertisingSetTerminated`.  The source reads
`adv_inst[advertising_handle]` with no bounds check; the out-of-range
access (undefined behaviour) is modelled as `none`. -/
def OnAdvertisingSetTerminated (status advertisingHandle connectionHandle
    numCompletedExtendedAdvEvents : Nat) (st : MgrState) :
    Option (MgrState × List Event) :=
  match st.adv_inst.get? advertisingHandle with
  | none => none
  | some pInst =>
    let evs1 := if st.cfg = PrivacyConfig.sptPrivacyOn ∧
        advertisingHandle ≤ BTM_BLE_MULTI_ADV_MAX then
        [Event.aclUpdateConnAddr connectionHandle pInst.own_address]
      else []
    if pInst.in_use then
      if pInst.advertising_event_properties &&& 0x0C = 0 then
        some (st, evs1 ++ [Event.hci (.enable true advertisingHandle 0x00 0x00)])
      else
        some (setInst st advertisingHandle { pInst with in_use := false }, evs1)
    else some (st, evs1)

lemma fragLen_pos {data : List Nat} {offset : Nat} (h : offset < data.length) :
    0 < fragLen data offset := by
  unfold fragLen ADV_DATA_LEN_MAX; split <;> omega

lemma fragLen_le {data : List Nat} {offset : Nat} :
    fragLen data offset ≤ data.length - offset := by
  unfold fragLen; split <;> omega

lemma fragChunk_length {data : List Nat} {offset : Nat} :
    ((data.drop offset).take (fragLen data offset)).length = fragLen data offset := by
  have := @fragLen_le data offset
  simp only [List.length_take, List.length_drop]
  omega

lemma fragGo_stop {data : List Nat} {fuel offset : Nat}
    (h : data.length ≤ offset) : fragmentsFromGo data fuel false offset = [] := by
  cases fuel <;> simp [fragmentsFromGo, h]

lemma fragGo_cons {data : List Nat} {isFirst : Bool} {fuel offset : Nat}
    (h : offset < data.length) :
    fragmentsFromGo data (fuel + 1) isFirst offset =
      (fragOp data isFirst offset,
        (data.drop offset).take (fragLen data offset)) ::
        fragmentsFromGo data fuel false (offset + fragLen data offset) := by
  have hg : ¬(¬isFirst = true ∧ data.length ≤ offset) := by
    rintro ⟨-, h2⟩; omega
  simp only [fragmentsFromGo, hg, if_false, ite_false]

lemma fragGo_first_empty {data : List Nat} {fuel offset : Nat}
    (h : data.length ≤ offset) :
    fragmentsFromGo data (fuel + 1) true offset = [(COMPLETE, [])] := by
  have hnm : ¬ADV_DATA_LEN_MAX < data.length - offset := by
    unfold ADV_DATA_LEN_MAX; omega
  have hLen : fragLen data offset = 0 := by
    unfold fragLen; simp [hnm]; omega
  have hOp : fragOp data true offset = COMPLETE := by
    unfold fragOp; simp [hnm]
  rw [fragmentsFromGo]
  simp [hLen, hOp, fragGo_stop h]

/-- Properties of the non-first tail of a fragment run: the chunks
concatenate to the remaining payload, the operations are zero or more
INTERMEDIATEs followed by one LAST, and every chunk but the last has
the maximal length. -/
lemma fragGo_tail_spec :
    ∀ (fuel : Nat) (data : List Nat) (offset : Nat),
    data.length ≤ fuel + offset → offset < data.length →
    (((fragmentsFromGo data fuel false offset).map Prod.snd).flatten =
      data.drop offset) ∧
    (∃ k, (fragmentsFromGo data fuel false offset).map Prod.fst =
      List.replicate k INTERMEDIATE ++ [LAST]) ∧
    (∀ j, j + 1 < (fragmentsFromGo data fuel false offset).length →
      ((fragmentsFromGo data fuel false offset).getD j (0, [])).2.length =
        ADV_DATA_LEN_MAX) := by
  intro fuel
  induction fuel with
  | zero => intro data offset hn hlt; omega
  | succ n ih =>
    intro data offset hn hlt
    rw [fragGo_cons hlt]
    by_cases hm : ADV_DATA_LEN_MAX < data.length - offset
    · -- more than one packet remains: INTERMEDIATE of maximal length
      have hLen : fragLen data offset = ADV_DATA_LEN_MAX := by
        unfold fragLen; simp [hm]
      have hlt' : offset + fragLen data offset < data.length := by
        rw [hLen]; unfold ADV_DATA_LEN_MAX at *; omega
      have hn' : data.length ≤ n + (offset + fragLen data offset) := by
        rw [hLen]; unfold ADV_DATA_LEN_MAX at *; omega
      obtain ⟨hjoin, ⟨k, hops⟩, hlens⟩ := ih data (offset + fragLen data offset) hn' hlt'
      have hop : fragOp data false offset = INTERMEDIATE := by
        unfold fragOp; simp [hm]
      refine ⟨?_, ⟨k + 1, ?_⟩, ?_⟩
      · rw [hLen] at hjoin
        simp only [List.map_cons, List.flatten_cons, hjoin, hLen]
        rw [← List.drop_drop]
        exact List.take_append_drop _ _
      · simp [hop, hops, List.replicate_succ]
      · intro j hj
        cases j with
        | zero =>
          simp only [List.getD_cons_zero]
          rw [fragChunk_length, hLen]
        | succ j =>
          simp only [List.length_cons] at hj
          simpa using hlens j (by omega)
    · -- final fragment: LAST with the whole remainder
      have hLen : fragLen data offset = data.length - offset := by
        unfold fragLen; simp [hm]
      have hstop : data.length ≤ offset + fragLen data offset := by omega
      rw [fragGo_stop hstop]
      have hop : fragOp data false offset = LAST := by
        unfold fragOp; simp [hm]
      refine ⟨?_, ⟨0, ?_⟩, ?_⟩
      · simp only [List.map_cons, List.map_nil, List.flatten_cons,
          List.flatten_nil, List.append_nil, hLen]
        have : (data.drop offset).length = data.length - offset := by simp
        rw [← this, List.take_length]
      · simp [hop]
      · intro j hj; simp at hj

lemma fragments_small {data : List Nat} (h : data.length ≤ ADV_DATA_LEN_MAX) :
    fragments data = [(COMPLETE, data)] := by
  unfold fragments
  rcases Nat.eq_zero_or_pos data.length with h0 | h0
  · rw [fragGo_first_empty (by omega)]
    have : data = [] := List.length_eq_zero.mp h0
    simp [this]
  · rw [fragGo_cons (by omega)]
    have hnm : ¬ADV_DATA_LEN_MAX < data.length := by omega
    have hLen : fragLen data 0 = data.length := by
      unfold fragLen; simp [hnm]
    have hOp : fragOp data true 0 = COMPLETE := by
      unfold fragOp; simp [hnm]
    rw [hLen, hOp, fragGo_stop (by omega)]
    simp

lemma fragments_large {data : List Nat} (h : ADV_DATA_LEN_MAX < data.length) :
    fragments data =
      (FIRST, data.take ADV_DATA_LEN_MAX) ::
        fragmentsFromGo data data.length false ADV_DATA_LEN_MAX := by
  unfold fragments
  rw [fragGo_cons (by omega)]
  have hLen : fragLen data 0 = ADV_DATA_LEN_MAX := by
    unfold fragLen; simp [h]
  have hOp : fragOp data true 0 = FIRST := by
    unfold fragOp; simp [h]
  rw [hLen, hOp]
  simp

/-- Unfolding: a non-zero incoming status runs the done callback at
once. -/
lemma divideRec_fail {instId : Nat} {data : List Nat} {offset : Nat}
    {k : Nat → Step} {mk : Nat → Nat → Nat → List Nat → HciCmd}
    {isFirst : Bool} {s : Nat} {st : MgrState} {comps : Comps}
    (hs : s ≠ 0) :
    DivideAndSendDataRecursively isFirst instId data offset k mk s st comps =
      k s st comps := by
  rw [DivideAndSendDataRecursively]
  simp [hs]

/-- Unfolding: at the end of the payload (not the first call) the done
callback runs with status 0. -/
lemma divideRec_done {instId : Nat} {data : List Nat} {offset : Nat}
    {k : Nat → Step} {mk : Nat → Nat → Nat → List Nat → HciCmd}
    {st : MgrState} {comps : Comps} (heq : offset = data.length) :
    DivideAndSendDataRecursively false instId data offset k mk 0 st comps =
      k 0 st comps := by
  rw [DivideAndSendDataRecursively]
  simp [heq]

/-- Unfolding: a chunk command is issued but no completion is pending. -/
lemma divideRec_step_nil {instId : Nat} {data : List Nat} {offset : Nat}
    {k : Nat → Step} {mk : Nat → Nat → Nat → List Nat → HciCmd}
    {isFirst : Bool} {st : MgrState}
    (h : isFirst = true ∨ offset ≠ data.length) :
    DivideAndSendDataRecursively isFirst instId data offset k mk 0 st [] =
      (st, ([] : Comps),
        [Event.hci (mk instId (fragOp data isFirst offset) (fragLen data offset)
          ((data.drop offset).take (fragLen data offset)))]) := by
  have hg : ¬((0 : Nat) ≠ 0 ∨ (¬isFirst = true ∧ offset = data.length)) := by
    rcases h with h | h <;> simp [h]
  rw [DivideAndSendDataRecursively, if_neg hg]
  simp [fragOp, fragLen]

/-- Unfolding: a chunk command is issued and the recursion continues on
the next completion. -/
lemma divideRec_step_cons {instId : Nat} {data : List Nat} {offset : Nat}
    {k : Nat → Step} {mk : Nat → Nat → Nat → List Nat → HciCmd}
    {isFirst : Bool} {st : MgrState} {s : Nat} {tx : Int} {rest : Comps}
    (h : isFirst = true ∨ offset ≠ data.length) :
    DivideAndSendDataRecursively isFirst instId data offset k mk 0 st
        ((s, tx) :: rest) =
      ((DivideAndSendDataRecursively false instId data
          (offset + fragLen data offset) k mk s st rest).1,
       (DivideAndSendDataRecursively false instId data
          (offset + fragLen data offset) k mk s st rest).2.1,
       Event.hci (mk instId (fragOp data isFirst offset) (fragLen data offset)
          ((data.drop offset).take (fragLen data offset))) ::
        (DivideAndSendDataRecursively false instId data
          (offset + fragLen data offset) k mk s st rest).2.2) := by
  have hg : ¬((0 : Nat) ≠ 0 ∨ (¬isFirst = true ∧ offset = data.length)) := by
    rcases h with h | h <;> simp [h]
  rw [DivideAndSendDataRecursively, if_neg hg]
  rcases hr : DivideAndSendDataRecursively false instId data
      (offset + fragLen data offset) k mk s st rest with ⟨a, b, c⟩
  simp only [fragLen] at hr
  simp [fragOp, fragLen, hr]

lemma assembleLoop_done {k : Nat → Step} {st : MgrState} {comps : Comps} :
    assembleLoop k st ([], some (0, comps)) = k 0 st comps := by
  rcases h : k 0 st comps with ⟨a, b, c⟩
  simp [assembleLoop, h]

lemma assembleLoop_cons {k : Nat → Step} {st : MgrState} {e : Event}
    {evs : List Event} {r : Option (Nat × Comps)} :
    assembleLoop k st (e :: evs, r) =
      ((assembleLoop k st (evs, r)).1, (assembleLoop k st (evs, r)).2.1,
        e :: (assembleLoop k st (evs, r)).2.2) := by
  cases r with
  | none => simp [assembleLoop]
  | some p =>
    obtain ⟨s, comps'⟩ := p
    rcases h : k s st comps' with ⟨a, b, c⟩
    simp [assembleLoop, h]

/-- The faithful fragmenter agrees with the specification-side
send loop over the fragment list, for any completion sequence. -/
lemma divide_eq_sendLoop {instId : Nat} {data : List Nat}
    {mk : Nat → Nat → Nat → List Nat → HciCmd} {k : Nat → Step} :
    ∀ (comps : Comps) (isFirst : Bool) (offset fuel : Nat) (st : MgrState),
      offset ≤ data.length → data.length < fuel + offset →
      DivideAndSendDataRecursively isFirst instId data offset k mk 0 st comps =
        assembleLoop k st
          (sendLoop (fun op len chunk => Event.hci (mk instId op len chunk))
            (fragmentsFromGo data fuel isFirst offset) comps) := by
  intro comps
  induction comps with
  | nil =>
    intro isFirst offset fuel st hoff hfuel
    obtain ⟨fuel, rfl⟩ : ∃ f, fuel = f + 1 := ⟨fuel - 1, by omega⟩
    rcases Nat.lt_or_ge offset data.length with hlt | hge
    · rw [fragGo_cons hlt,
        divideRec_step_nil (by cases isFirst <;> simp <;> omega)]
      have hmin : fragLen data offset ⊓ (data.length - offset) = fragLen data offset :=
        min_eq_left fragLen_le
      simp [sendLoop, assembleLoop, hmin]
    · have heq : offset = data.length := by omega
      cases isFirst
      · rw [divideRec_done heq, fragGo_stop (by omega)]
        simp [sendLoop, assembleLoop_done]
      · rw [divideRec_step_nil (Or.inl rfl), fragGo_first_empty (by omega)]
        have hnm : ¬ADV_DATA_LEN_MAX < data.length - offset := by omega
        have hLen : fragLen data offset = 0 := by
          unfold fragLen; simp [hnm]; omega
        have hOp : fragOp data true offset = COMPLETE := by
          unfold fragOp; simp [hnm]
        simp [sendLoop, assembleLoop, hLen, hOp]
  | cons hd tl ih =>
    intro isFirst offset fuel st hoff hfuel
    obtain ⟨s, tx⟩ := hd
    obtain ⟨fuel, rfl⟩ : ∃ f, fuel = f + 1 := ⟨fuel - 1, by omega⟩
    rcases Nat.lt_or_ge offset data.length with hlt | hge
    · rw [fragGo_cons hlt,
        divideRec_step_cons (by cases isFirst <;> simp <;> omega)]
      have hmin : fragLen data offset ⊓ (data.length - offset) = fragLen data offset :=
        min_eq_left fragLen_le
      by_cases hs : s = 0
      · subst hs
        rw [ih false (offset + fragLen data offset) fuel st
          (by have := @fragLen_le data offset; omega)
          (by have := fragLen_pos hlt; omega)]
        rcases hq : sendLoop (fun op len chunk => Event.hci (mk instId op len chunk))
            (fragmentsFromGo data fuel false (offset + fragLen data offset)) tl
          with ⟨evs, r⟩
        simp [sendLoop, hq, assembleLoop_cons, hmin]
      · rw [divideRec_fail hs]
        rcases h : k s st tl with ⟨a, b, c⟩
        simp [sendLoop, hs, assembleLoop, h, hmin]
    · have heq : offset = data.length := by omega
      cases isFirst
      · rw [divideRec_done heq, fragGo_stop (by omega)]
        simp [sendLoop, assembleLoop_done]
      · rw [divideRec_step_cons (Or.inl rfl), fragGo_first_empty (by omega)]
        have hnm : ¬ADV_DATA_LEN_MAX < data.length - offset := by omega
        have hLen : fragLen data offset = 0 := by
          unfold fragLen; simp [hnm]; omega
        have hOp : fragOp data true offset = COMPLETE := by
          unfold fragOp; simp [hnm]
        rw [hLen, hOp]
        by_cases hs : s = 0
        · subst hs
          have hrec : DivideAndSendDataRecursively false instId data (offset + 0) k mk
              0 st tl = k 0 st tl := divideRec_done (by omega)
          rw [hrec]
          rcases h : k 0 st tl with ⟨a, b, c⟩
          simp only [sendLoop, h, heq, List.drop_length, List.take_nil,
            List.length_nil, ite_self]
          rw [assembleLoop_cons, assembleLoop_done, h]
        · rw [divideRec_fail hs]
          rcases h : k s st tl with ⟨a, b, c⟩
          simp [sendLoop, hs, assembleLoop, h, heq, List.drop_length]

lemma sendLoop_all {mkEv : Nat → Nat → List Nat → Event} :
    ∀ (frags : List (Nat × List Nat)) (zs rest : Comps),
      zs.length = frags.length → allZeroSt zs →
      sendLoop mkEv frags (zs ++ rest) =
        (frags.map fun f => mkEv f.1 f.2.length f.2, some (0, rest)) := by
  intro frags
  induction frags with
  | nil =>
    intro zs rest hlen _
    have hz : zs = [] := List.length_eq_zero.mp (by simpa using hlen)
    subst hz
    simp [sendLoop]
  | cons f fs ih =>
    intro zs rest hlen hz
    obtain ⟨op, chunk⟩ := f
    cases zs with
    | nil => simp at hlen
    | cons z zs' =>
      obtain ⟨s, tx⟩ := z
      have hs : s = 0 := hz (s, tx) (by simp)
      subst hs
      have hz' : allZeroSt zs' := fun p hp => hz p (by simp [hp])
      have hlen' : zs'.length = fs.length := by simpa using hlen
      simp [sendLoop, ih zs' rest hlen' hz']

lemma sendLoop_short {mkEv : Nat → Nat → List Nat → Event} :
    ∀ (frags : List (Nat × List Nat)) (comps : Comps),
      allZeroSt comps → comps.length < frags.length →
      sendLoop mkEv frags comps =
        ((frags.take (comps.length + 1)).map fun f => mkEv f.1 f.2.length f.2,
          none) := by
  intro frags
  induction frags with
  | nil => intro comps _ h; simp at h
  | cons f fs ih =>
    intro comps hz hlt
    obtain ⟨op, chunk⟩ := f
    cases comps with
    | nil => simp [sendLoop]
    | cons z tl =>
      obtain ⟨s, tx⟩ := z
      have hs : s = 0 := hz (s, tx) (by simp)
      subst hs
      have hz' : allZeroSt tl := fun p hp => hz p (by simp [hp])
      have hlt' : tl.length < fs.length := by simpa using hlt
      simp [sendLoop, ih tl hz' hlt']

lemma sendLoop_fail {mkEv : Nat → Nat → List Nat → Event} :
    ∀ (frags : List (Nat × List Nat)) (zs : Comps) (s : Nat) (tx : Int)
      (rest : Comps),
      allZeroSt zs → s ≠ 0 → zs.length < frags.length →
      sendLoop mkEv frags (zs ++ (s, tx) :: rest) =
        ((frags.take (zs.length + 1)).map fun f => mkEv f.1 f.2.length f.2,
          some (s, rest)) := by
  intro frags
  induction frags with
  | nil => intro zs s tx rest _ _ h; simp at h
  | cons f fs ih =>
    intro zs s tx rest hz hs hlt
    obtain ⟨op, chunk⟩ := f
    cases zs with
    | nil => simp [sendLoop, hs]
    | cons z zs' =>
      obtain ⟨s0, tx0⟩ := z
      have hs0 : s0 = 0 := hz (s0, tx0) (by simp)
      subst hs0
      have hz' : allZeroSt zs' := fun p hp => hz p (by simp [hp])
      have hlt' : zs'.length < fs.length := by simpa using hlt
      simp [sendLoop, ih zs' s tx rest hz' hs hlt']

/-- C3: for every payload handed to the data fragmenter, the chunks
passed to the sender, in order, concatenate back to the original
payload; a payload of at most 251 bytes (the empty payload included,
then with one zero-length chunk) produces exactly one chunk tagged
COMPLETE (0x03); a longer payload produces exactly one FIRST (0x01),
zero or more INTERMEDIATE (0x00) chunks and exactly one LAST (0x02),
and every chunk except the final one has length exactly 251.  The first
conjunct ties the fragment list to the faithful
`DivideAndSendData` recursion: on an all-success completion sequence it
issues exactly the fragment commands, in order, and then reports 0. -/
theorem claim_C3 :
    (∀ (instId : Nat) (data : List Nat)
      (mk : Nat → Nat → Nat → List Nat → HciCmd) (st : MgrState)
      (zs rest : Comps), allZeroSt zs → zs.length = (fragments data).length →
      DivideAndSendData instId data (tagCont CbTag.user) mk st (zs ++ rest) =
        (st, rest,
          (fragments data).map
            (fun f => Event.hci (mk instId f.1 f.2.length f.2)) ++
          [Event.cb CbTag.user [0]])) ∧
    (∀ data : List Nat, ((fragments data).map Prod.snd).flatten = data) ∧
    (∀ data : List Nat, data.length ≤ ADV_DATA_LEN_MAX →
      fragments data = [(COMPLETE, data)]) ∧
    (∀ data : List Nat, ADV_DATA_LEN_MAX < data.length →
      (∃ k, (fragments data).map Prod.fst =
        FIRST :: (List.replicate k INTERMEDIATE ++ [LAST])) ∧
      (∀ j, j + 1 < (fragments data).length →
        ((fragments data).getD j (0, [])).2.length = ADV_DATA_LEN_MAX)) := by
  refine ⟨?_, ?_, ?_, ?_⟩
  · intro instId data mk st zs rest hz hlen
    unfold DivideAndSendData
    rw [divide_eq_sendLoop (zs ++ rest) true 0 (data.length + 1) st
      (Nat.zero_le _) (by omega)]
    unfold fragments at hlen
    rw [sendLoop_all _ zs rest hlen hz]
    rcases h : tagCont CbTag.user 0 st rest with ⟨a, b, c⟩
    simp only [tagCont] at h
    cases h
    simp [assembleLoop, tagCont, fragments]
  · intro data
    by_cases h : data.length ≤ ADV_DATA_LEN_MAX
    · simp [fragments_small h]
    · push_neg at h
      rw [fragments_large h]
      obtain ⟨hjoin, -, -⟩ :=
        fragGo_tail_spec data.length data ADV_DATA_LEN_MAX (by omega) h
      simp only [List.map_cons, List.flatten_cons, hjoin]
      exact List.take_append_drop _ _
  · intro data h
    exact fragments_small h
  · intro data h
    obtain ⟨-, ⟨k, hops⟩, hlens⟩ :=
      fragGo_tail_spec data.length data ADV_DATA_LEN_MAX (by omega) h
    constructor
    · exact ⟨k, by rw [fragments_large h]; simp [hops]⟩
    · intro j hj
      rw [fragments_large h] at hj ⊢
      cases j with
      | zero =>
        simp only [List.getD_cons_zero]
        simp [List.length_take, min_eq_left (Nat.le_of_lt h)]
      | succ j =>
        simp only [List.length_cons] at hj
        simpa using hlens j (by omega)

/-- Witness for C3 at a concrete payload. -/
theorem claim_C3_witness :
    DivideAndSendData 0 [7, 8] (tagCont CbTag.user)
        (fun i op len d => HciCmd.setAdvertisingData i op 1 len d)
        (initState PrivacyConfig.noSpt [0, 0, 0, 0, 0, 0] 1) ([(0, 0)] ++ []) =
      (initState PrivacyConfig.noSpt [0, 0, 0, 0, 0, 0] 1, [],
        [Event.hci (HciCmd.setAdvertisingData 0 COMPLETE 1 2 [7, 8]),
         Event.cb CbTag.user [0]]) := by
  have h := claim_C3.1 0 [7, 8]
    (fun i op len d => HciCmd.setAdvertisingData i op 1 len d)
    (initState PrivacyConfig.noSpt [0, 0, 0, 0, 0, 0] 1)
    [(0, 0)] [] (by decide) (by decide)
  exact h.trans (by decide)

lemma setInst_length {st : MgrState} {i : Nat} {inst : AdvertisingInstance} :
    (setInst st i inst).adv_inst.length = st.adv_inst.length := by
  simp [setInst]

lemma setInst_inst_count {st : MgrState} {i : Nat} {inst : AdvertisingInstance} :
    (setInst st i inst).inst_count = st.inst_count := rfl

lemma setInst_cfg {st : MgrState} {i : Nat} {inst : AdvertisingInstance} :
    (setInst st i inst).cfg = st.cfg := rfl

lemma getInst_setInst_self {st : MgrState} {i : Nat}
    {inst : AdvertisingInstance} (h : i < st.adv_inst.length) :
    getInst (setInst st i inst) i = inst := by
  simp [getInst, setInst, List.getD, List.getElem?_set_self', h]

lemma getInst_setInst_ne {st : MgrState} {i j : Nat}
    {inst : AdvertisingInstance} (h : i ≠ j) :
    getInst (setInst st i inst) j = getInst st j := by
  simp [getInst, setInst, List.getD, List.getElem?_set_ne h]

/-- Identity continuation, used to observe the state right after an
asynchronous step completed. -/
def idStep : Step := fun st comps => (st, comps, [])

lemma firstFree_none_iff :
    ∀ l : List AdvertisingInstance,
      firstFree l = none ↔ ∀ p ∈ l, p.in_use = true := by
  intro l
  induction l with
  | nil => simp [firstFree]
  | cons p rest ih =>
    rw [firstFree]
    by_cases hp : p.in_use
    · rw [if_pos hp]
      constructor
      · intro h
        have hn : firstFree rest = none := by
          cases hf : firstFree rest with
          | none => rfl
          | some j => rw [hf] at h; simp at h
        intro q hq
        rcases List.mem_cons.mp hq with rfl | hq
        · exact hp
        · exact (ih.mp hn) q hq
      · intro h
        rw [ih.mpr (fun q hq => h q (List.mem_cons_of_mem _ hq))]
        rfl
    · rw [if_neg hp]
      constructor
      · intro h; simp at h
      · intro h
        exact absurd (h p (List.mem_cons_self _ _)) hp

lemma firstFree_some :
    ∀ (l : List AdvertisingInstance) (i : Nat), firstFree l = some i →
      i < l.length ∧ (l.getD i default).in_use = false ∧
        ∀ j < i, (l.getD j default).in_use = true := by
  intro l
  induction l with
  | nil => intro i h; cases h
  | cons p rest ih =>
    intro i h
    by_cases hp : p.in_use
    · rw [firstFree, if_pos hp] at h
      cases hf : firstFree rest with
      | none => rw [hf] at h; cases h
      | some j =>
        rw [hf] at h
        have h2 : j + 1 = i := by simpa using h
        obtain ⟨hlt, hfree, hprev⟩ := ih j hf
        cases h2
        refine ⟨by simpa using hlt, by simpa using hfree, ?_⟩
        intro m hm
        cases m with
        | zero => simpa using hp
        | succ m => simpa using hprev m (by omega)
    · rw [firstFree, if_neg hp] at h
      cases h
      refine ⟨by simp, by simpa using hp, by omega⟩

/-- C10: `OnAdvertisingSetTerminated` dereferences
`adv_inst[advertising_handle]` with no bounds check against
`inst_count`; the access (modelled as the partial `get?`) succeeds
exactly under the unchecked precondition
`advertising_handle < inst_count`. -/
theorem claim_C10 :
    ∀ (st : MgrState) (status handle connHandle n : Nat),
      st.inst_count = st.adv_inst.length →
      ((OnAdvertisingSetTerminated status handle connHandle n st).isSome ↔
        handle < st.inst_count) := by
  intro st status handle connHandle n hlen
  rw [hlen]
  cases hg : st.adv_inst.get? handle with
  | none =>
    have hge : st.adv_inst.length ≤ handle := List.get?_eq_none.mp hg
    simp only [OnAdvertisingSetTerminated, hg]
    simpa using by omega
  | some inst =>
    have hlt : handle < st.adv_inst.length := by
      by_contra hge
      rw [List.get?_eq_none.mpr (by omega)] at hg
      cases hg
    simp only [OnAdvertisingSetTerminated, hg]
    constructor
    · intro _; exact hlt
    · intro _
      split
      · split <;> simp
      · simp

/-- Witness for C10: on a two-slot table, handle 5 faults. -/
theorem claim_C10_witness :
    ¬(OnAdvertisingSetTerminated 0 5 0 0
        (initState PrivacyConfig.noSpt [0, 0, 0, 0, 0, 0] 2)).isSome := by
  have h := claim_C10 (initState PrivacyConfig.noSpt [0, 0, 0, 0, 0, 0] 2)
    0 5 0 0 (by decide)
  intro hs
  exact absurd (h.mp hs) (by decide)

lemma exists_len6 {l : List Nat} (h : l.length = 6) :
    ∃ b0 b1 b2 b3 b4 b5, l = [b0, b1, b2, b3, b4, b5] :=
  match l, h with
  | [b0, b1, b2, b3, b4, b5], _ => ⟨b0, b1, b2, b3, b4, b5, rfl⟩

/-- C4 (amended): after an RPA generation completes, `own_address[0]`
is the masked prand byte `(rand[2] & ~BLE_RESOLVE_ADDR_MASK) |
BLE_RESOLVE_ADDR_MSB` (so its top two bits are `01`),
`own_address[1..2]` are the remaining prand bytes in reversed order,
and `own_address[3..5]` are the low three AES-hash bytes in reversed
order (the hash is the least-significant end of the address).  The
claimed layout (hash in bytes `[0..2]`, prand in `[3..5]`, marker bits
in byte 5) is the same address read with the opposite byte order and
does not hold for these indices. -/
theorem claim_C4_amended :
    ∀ (st : MgrState) (instId : Nat) (rand hashOut : List Nat),
      instId < st.adv_inst.length →
      (getInst st instId).own_address.length = 6 →
      (getInst (OnRpaGenerationComplete instId rand hashOut idStep st []).1
          instId).own_address =
        [(rand.getD 2 0 &&& (255 - BLE_RESOLVE_ADDR_MASK)) ||| BLE_RESOLVE_ADDR_MSB,
         rand.getD 1 0, rand.getD 0 0,
         hashOut.getD 2 0, hashOut.getD 1 0, hashOut.getD 0 0] ∧
      ((getInst (OnRpaGenerationComplete instId rand hashOut idStep st []).1
          instId).own_address.getD 0 0) >>> 6 = 1 := by
  intro st instId rand hashOut hlt hlen
  obtain ⟨b0, b1, b2, b3, b4, b5, heq⟩ := exists_len6 hlen
  have hrun : (OnRpaGenerationComplete instId rand hashOut idStep st []).1 =
      setInst st instId { getInst st instId with
        own_address :=
          [(rand.getD 2 0 &&& (255 - BLE_RESOLVE_ADDR_MASK)) ||| BLE_RESOLVE_ADDR_MSB,
           rand.getD 1 0, rand.getD 0 0,
           hashOut.getD 2 0, hashOut.getD 1 0, hashOut.getD 0 0] } := by
    unfold OnRpaGenerationComplete idStep
    simp [heq]
  rw [hrun, getInst_setInst_self hlt]
  refine ⟨rfl, ?_⟩
  simp only [List.getD_cons_zero]
  have hb : rand.getD 2 0 &&& (255 - BLE_RESOLVE_ADDR_MASK) < 64 := by
    have h1 : rand.getD 2 0 &&& (255 - BLE_RESOLVE_ADDR_MASK) ≤
        255 - BLE_RESOLVE_ADDR_MASK := Nat.and_le_right
    simp only [BLE_RESOLVE_ADDR_MASK] at h1 ⊢
    omega
  have hall : ∀ a < 64, (a ||| 64) >>> 6 = 1 := by decide
  have h2 := hall _ hb
  simpa [BLE_RESOLVE_ADDR_MSB] using h2

/-- Witness for the amended C4 at concrete prand and hash bytes. -/
theorem claim_C4_witness :
    (getInst (OnRpaGenerationComplete 0 [17, 34, 51, 0, 0, 0, 0, 0]
        [170, 187, 204, 0] idStep
        (initState PrivacyConfig.sptPrivacyOn [9, 9, 9, 9, 9, 9] 1) []).1
        0).own_address = [115, 34, 17, 204, 187, 170] ∧
    ((getInst (OnRpaGenerationComplete 0 [17, 34, 51, 0, 0, 0, 0, 0]
        [170, 187, 204, 0] idStep
        (initState PrivacyConfig.sptPrivacyOn [9, 9, 9, 9, 9, 9] 1) []).1
        0).own_address.getD 0 0) >>> 6 = 1 := by
  have h := claim_C4_amended
    (initState PrivacyConfig.sptPrivacyOn [9, 9, 9, 9, 9, 9] 1) 0
    [17, 34, 51, 0, 0, 0, 0, 0] [170, 187, 204, 0] (by decide) (by decide)
  exact ⟨h.1.trans (by decide), h.2⟩

/-- Counterexample to C4 as stated: generate with prand bytes
`11 22 33` and an AES output whose low bytes are all zero.  The
resulting address is `[0x73, 0x22, 0x11, 0, 0, 0]`: bytes `[0..2]` hold
the masked prand, not the (all-zero) hash, and byte 5 is `0x00`, whose
top two bits are `00`, not `10`. -/
theorem claim_C4_counterexample :
    (getInst (OnRpaGenerationComplete 0 [17, 34, 51, 0, 0, 0, 0, 0] [0, 0, 0, 0]
        idStep (initState PrivacyConfig.sptPrivacyOn [0, 0, 0, 0, 0, 0] 1) []).1
        0).own_address = [115, 34, 17, 0, 0, 0] ∧
    ¬(((getInst (OnRpaGenerationComplete 0 [17, 34, 51, 0, 0, 0, 0, 0] [0, 0, 0, 0]
        idStep (initState PrivacyConfig.sptPrivacyOn [0, 0, 0, 0, 0, 0] 1) []).1
        0).own_address.take 3 = [0, 0, 0]) ∧
      (((getInst (OnRpaGenerationComplete 0 [17, 34, 51, 0, 0, 0, 0, 0] [0, 0, 0, 0]
        idStep (initState PrivacyConfig.sptPrivacyOn [0, 0, 0, 0, 0, 0] 1) []).1
        0).own_address.getD 5 0) >>> 6 = 2)) := by decide

lemma countInUse_le (st : MgrState) : countInUse st ≤ st.adv_inst.length :=
  List.length_filter_le _ _

/-- Bounds are preserved by table writes. -/
lemma lt_setInst_length {st : MgrState} {i j : Nat}
    {inst : AdvertisingInstance} (h : j < st.adv_inst.length) :
    j < (setInst st i inst).adv_inst.length := by
  simpa [setInst] using h

/-- `RegisterAdvertiser` with a full table. -/
lemma register_run_none {cb : Nat → Nat → Step} {rand hashOut : List Nat}
    {st : MgrState} {comps : Comps}
    (hf : firstFree (st.adv_inst.take st.inst_count) = none) :
    RegisterAdvertiser cb rand hashOut st comps =
      cb 0xFF ADVERTISE_FAILED_TOO_MANY_ADVERTISERS st comps := by
  unfold RegisterAdvertiser
  simp only [hf]

/-- `RegisterAdvertiser` without privacy support: the success callback
runs directly on the post-registration state. -/
lemma register_run_noSpt {cb : Nat → Nat → Step} {rand hashOut : List Nat}
    {st st2 : MgrState} {comps : Comps} {i : Nat}
    (hcfg : st.cfg = PrivacyConfig.noSpt)
    (hro : registerOutcome st rand hashOut = some (i, st2)) :
    RegisterAdvertiser cb rand hashOut st comps =
      cb i BTM_BLE_MULTI_ADV_SUCCESS st2 comps := by
  unfold registerOutcome at hro
  unfold RegisterAdvertiser
  cases hf : firstFree (st.adv_inst.take st.inst_count) with
  | none => rw [hf] at hro; cases hro
  | some j =>
    simp only [hf, hcfg, Option.some.injEq, Prod.mk.injEq] at hro
    simp only [hf, hcfg]
    obtain ⟨rfl, rfl⟩ := hro
    rfl

/-- `RegisterAdvertiser` with privacy support but privacy disabled at
runtime: the slot is taken and no callback runs. -/
lemma register_run_privacyOff {cb : Nat → Nat → Step} {rand hashOut : List Nat}
    {st st2 : MgrState} {comps : Comps} {i : Nat}
    (hcfg : st.cfg = PrivacyConfig.sptPrivacyOff)
    (hro : registerOutcome st rand hashOut = some (i, st2)) :
    RegisterAdvertiser cb rand hashOut st comps = (st2, comps, []) := by
  unfold registerOutcome at hro
  unfold RegisterAdvertiser
  cases hf : firstFree (st.adv_inst.take st.inst_count) with
  | none => rw [hf] at hro; cases hro
  | some j =>
    simp only [hf, hcfg, Option.some.injEq, Prod.mk.injEq] at hro
    simp only [hf, hcfg]
    obtain ⟨rfl, rfl⟩ := hro
    rfl

/-- `RegisterAdvertiser` with privacy on: the RPA is generated, the
rotation alarm armed, and the success callback runs on the resulting
state, after the alarm event. -/
lemma register_run_privacyOn {cb : Nat → Nat → Step} {rand hashOut : List Nat}
    {st st2 : MgrState} {comps : Comps} {i : Nat}
    (hcfg : st.cfg = PrivacyConfig.sptPrivacyOn)
    (hro : registerOutcome st rand hashOut = some (i, st2)) :
    RegisterAdvertiser cb rand hashOut st comps =
      ((cb i BTM_BLE_MULTI_ADV_SUCCESS st2 comps).1,
       (cb i BTM_BLE_MULTI_ADV_SUCCESS st2 comps).2.1,
       Event.alarmSetRaddr i BTM_BLE_PRIVATE_ADDR_INT_MS ::
         (cb i BTM_BLE_MULTI_ADV_SUCCESS st2 comps).2.2) := by
  unfold registerOutcome at hro
  unfold RegisterAdvertiser OnRpaGenerationComplete
  cases hf : firstFree (st.adv_inst.take st.inst_count) with
  | none => rw [hf] at hro; cases hro
  | some j =>
    simp only [hf, hcfg, Option.some.injEq, Prod.mk.injEq] at hro
    simp only [hf, hcfg]
    obtain ⟨rfl, hst⟩ := hro
    rcases hcb : cb j BTM_BLE_MULTI_ADV_SUCCESS st2 comps with ⟨a, b, c⟩
    rw [← hst] at hcb
    simp only [hcb]

lemma registerOutcome_none {st : MgrState} {rand hashOut : List Nat}
    (h : firstFree (st.adv_inst.take st.inst_count) = none) :
    registerOutcome st rand hashOut = none := by
  unfold registerOutcome
  simp only [h]

lemma registerOutcome_of_firstFree {st : MgrState} {rand hashOut : List Nat}
    {i : Nat} (h : firstFree (st.adv_inst.take st.inst_count) = some i) :
    ∃ st2, registerOutcome st rand hashOut = some (i, st2) := by
  unfold registerOutcome
  simp only [h]
  cases st.cfg <;> exact ⟨_, rfl⟩

/-- Shape facts about the post-registration state. -/
lemma registerOutcome_state {st st2 : MgrState} {rand hashOut : List Nat}
    {i : Nat} (h : registerOutcome st rand hashOut = some (i, st2)) :
    st2.adv_inst.length = st.adv_inst.length ∧
    st2.inst_count = st.inst_count ∧ st2.cfg = st.cfg ∧
    (i < st.adv_inst.length → (getInst st2 i).in_use = true) := by
  unfold registerOutcome at h
  cases hf : firstFree (st.adv_inst.take st.inst_count) with
  | none => simp only [hf] at h; cases h
  | some j =>
    simp only [hf] at h
    cases hcfg : st.cfg <;> rw [hcfg] at h <;>
      simp only [Option.some.injEq, Prod.mk.injEq] at h
    · obtain ⟨rfl, rfl⟩ := h
      refine ⟨by simp [setInst], rfl, by simp [setInst_cfg, hcfg], fun hlt => ?_⟩
      rw [getInst_setInst_self (lt_setInst_length (lt_setInst_length
        (lt_setInst_length hlt)))]
      rw [getInst_setInst_self (lt_setInst_length (lt_setInst_length hlt))]
      rw [getInst_setInst_self (lt_setInst_length hlt)]
      rw [getInst_setInst_self hlt]
    · obtain ⟨rfl, rfl⟩ := h
      refine ⟨by simp [setInst], rfl, by simp [setInst_cfg, hcfg], fun hlt => ?_⟩
      rw [getInst_setInst_self hlt]
    · obtain ⟨rfl, rfl⟩ := h
      refine ⟨by simp [setInst], rfl, by simp [setInst_cfg, hcfg], fun hlt => ?_⟩
      rw [getInst_setInst_self (lt_setInst_length hlt)]
      rw [getInst_setInst_self hlt]

/-- C7: `Register` invokes the callback with `(0xFF,
TOO_MANY_ADVERTISERS)` exactly when every slot is `in_use`; otherwise
the first free slot is the one taken: every earlier slot was busy, the
chosen slot was free and is marked `in_use` afterwards, the
TOO_MANY_ADVERTISERS callback is never invoked, and at most
`inst_count` instances are allocated. -/
theorem claim_C7 :
    ∀ (st : MgrState) (rand hashOut : List Nat) (comps : Comps),
      st.inst_count = st.adv_inst.length →
      (((∀ p ∈ st.adv_inst, p.in_use = true) →
        RegisterAdvertiser userRegCont rand hashOut st comps =
          (st, comps, [Event.cb CbTag.user
            [((0xFF : Nat) : Int),
             ((ADVERTISE_FAILED_TOO_MANY_ADVERTISERS : Nat) : Int)]])) ∧
      (∀ i, firstFree st.adv_inst = some i →
        (∀ j < i, (getInst st j).in_use = true) ∧
        (getInst st i).in_use = false ∧
        (getInst (RegisterAdvertiser userRegCont rand hashOut st comps).1
          i).in_use = true ∧
        Event.cb CbTag.user
          [((0xFF : Nat) : Int),
           ((ADVERTISE_FAILED_TOO_MANY_ADVERTISERS : Nat) : Int)] ∉
          (RegisterAdvertiser userRegCont rand hashOut st comps).2.2 ∧
        countInUse (RegisterAdvertiser userRegCont rand hashOut st comps).1 ≤
          st.inst_count)) := by
  intro st rand hashOut comps hlen
  have htake : st.adv_inst.take st.inst_count = st.adv_inst := by
    rw [hlen]; exact List.take_length _
  constructor
  · intro hall
    have hnone : firstFree (st.adv_inst.take st.inst_count) = none := by
      rw [htake]; exact (firstFree_none_iff _).mpr hall
    rw [register_run_none hnone]
    rfl
  · intro i hsome
    have hsome' : firstFree (st.adv_inst.take st.inst_count) = some i := by
      rw [htake]; exact hsome
    obtain ⟨hlt, hfree, hprev⟩ := firstFree_some _ _ hsome
    obtain ⟨st2, hro⟩ := registerOutcome_of_firstFree hsome'
    obtain ⟨hL, hC, -, hinuse⟩ := registerOutcome_state hro
    have hcount : countInUse st2 ≤ st.inst_count := by
      have := countInUse_le st2
      omega
    refine ⟨hprev, hfree, ?_, ?_, ?_⟩ <;>
      rcases hc : st.cfg with - | - | -
    · rw [register_run_privacyOn hc hro]; simpa [userRegCont] using hinuse hlt
    · rw [register_run_privacyOff hc hro]; exact hinuse hlt
    · rw [register_run_noSpt hc hro]; simpa [userRegCont] using hinuse hlt
    · rw [register_run_privacyOn hc hro]
      simp [userRegCont, ADVERTISE_FAILED_TOO_MANY_ADVERTISERS,
        BTM_BLE_MULTI_ADV_SUCCESS]
    · rw [register_run_privacyOff hc hro]; simp
    · rw [register_run_noSpt hc hro]
      simp [userRegCont, ADVERTISE_FAILED_TOO_MANY_ADVERTISERS,
        BTM_BLE_MULTI_ADV_SUCCESS]
    · rw [register_run_privacyOn hc hro]; simpa [userRegCont] using hcount
    · rw [register_run_privacyOff hc hro]; exact hcount
    · rw [register_run_noSpt hc hro]; simpa [userRegCont] using hcount

/-- Witness for C7 on a fresh two-slot table: slot 0 is taken. -/
theorem claim_C7_witness :
    (getInst (RegisterAdvertiser userRegCont [] []
      (initState PrivacyConfig.noSpt [1, 2, 3, 4, 5, 6] 2) []).1 0).in_use =
      true ∧
    countInUse (RegisterAdvertiser userRegCont [] []
      (initState PrivacyConfig.noSpt [1, 2, 3, 4, 5, 6] 2) []).1 ≤ 2 := by
  have h := (claim_C7 (initState PrivacyConfig.noSpt [1, 2, 3, 4, 5, 6] 2)
    [] [] [] (by decide)).2 0 (by decide)
  exact ⟨h.2.2.1, h.2.2.2.2⟩

/-- C9 (amended): a call with an out-of-range `inst_id` changes nothing
and runs no callback at all (the source merely logs and returns);
`Enable` and `SetParameters` on a valid but unused instance change
nothing and invoke the callback with FAILURE; `SetData` performs no
`in_use` check at all and proceeds to preprocess and send the payload
for any valid `inst_id`. -/
theorem claim_C9_amended :
    (∀ (st : MgrState) (instId : Nat) (comps : Comps) (en : Bool)
       (timeoutS : Int) (tmo : CbTag) (params : AdvParams) (isScanRsp : Bool)
       (data : List Nat), st.inst_count ≤ instId →
      Enable instId en (tagCont CbTag.user) timeoutS tmo st comps =
        (st, comps, []) ∧
      SetParameters instId params (fun s _ => tagCont CbTag.user s) st comps =
        (st, comps, []) ∧
      SetData instId isScanRsp data (tagCont CbTag.user) st comps =
        (st, comps, [])) ∧
    (∀ (st : MgrState) (instId : Nat) (comps : Comps) (en : Bool)
       (timeoutS : Int) (tmo : CbTag) (params : AdvParams),
      instId < st.inst_count → (getInst st instId).in_use = false →
      Enable instId en (tagCont CbTag.user) timeoutS tmo st comps =
        (st, comps,
          [Event.cb CbTag.user [((BTM_BLE_MULTI_ADV_FAILURE : Nat) : Int)]]) ∧
      SetParameters instId params (fun s _ => tagCont CbTag.user s) st comps =
        (st, comps,
          [Event.cb CbTag.user [((BTM_BLE_MULTI_ADV_FAILURE : Nat) : Int)]])) ∧
    (∀ (st : MgrState) (instId : Nat) (comps : Comps) (isScanRsp : Bool)
       (data : List Nat), instId < st.inst_count →
      SetData instId isScanRsp data (tagCont CbTag.user) st comps =
        DivideAndSendData instId
          (setDataPreprocess (getInst st instId) isScanRsp data)
          (tagCont CbTag.user) (SetDataAdvDataSender isScanRsp) st comps) := by
  refine ⟨?_, ?_, ?_⟩
  · intro st instId comps en timeoutS tmo params isScanRsp data hge
    refine ⟨?_, ?_, ?_⟩ <;> simp [Enable, SetParameters, SetData, hge]
  · intro st instId comps en timeoutS tmo params hlt hfree
    constructor
    · unfold Enable
      rw [if_neg (by omega)]
      simp [hfree, tagCont]
    · unfold SetParameters
      rw [if_neg (by omega)]
      simp [hfree, tagCont]
  · intro st instId comps isScanRsp data hlt
    unfold SetData
    rw [if_neg (by omega)]

/-- Witness for the amended C9 on a one-slot table with slot 0 free. -/
theorem claim_C9_witness :
    Enable 5 true (tagCont CbTag.user) 0 CbTag.doNothing
      (initState PrivacyConfig.noSpt [0, 0, 0, 0, 0, 0] 1) [] =
      (initState PrivacyConfig.noSpt [0, 0, 0, 0, 0, 0] 1, [], []) ∧
    Enable 0 true (tagCont CbTag.user) 0 CbTag.doNothing
      (initState PrivacyConfig.noSpt [0, 0, 0, 0, 0, 0] 1) [] =
      (initState PrivacyConfig.noSpt [0, 0, 0, 0, 0, 0] 1, [],
        [Event.cb CbTag.user [((BTM_BLE_MULTI_ADV_FAILURE : Nat) : Int)]]) := by
  refine ⟨?_, ?_⟩
  · exact (claim_C9_amended.1 (initState PrivacyConfig.noSpt [0, 0, 0, 0, 0, 0] 1)
      5 [] true 0 CbTag.doNothing ⟨0, 0, 0, 0, 0, 0, 0, 0, 0⟩ false []
      (by decide)).1
  · exact ((claim_C9_amended.2.1 (initState PrivacyConfig.noSpt [0, 0, 0, 0, 0, 0] 1)
      0 [] true 0 CbTag.doNothing ⟨0, 0, 0, 0, 0, 0, 0, 0, 0⟩
      (by decide) (by decide)).1)

/-- Counterexample to C9 as stated: `Enable` with an out-of-range
`inst_id` runs no callback at all (so no FAILURE is delivered), and
`SetData` on a valid but unused instance performs no `in_use` check:
it issues the HCI data command instead of failing. -/
theorem claim_C9_counterexample :
    Enable 1 true (tagCont CbTag.user) 0 CbTag.doNothing
      (initState PrivacyConfig.noSpt [0, 0, 0, 0, 0, 0] 1) [] =
      (initState PrivacyConfig.noSpt [0, 0, 0, 0, 0, 0] 1, [], []) ∧
    (getInst (initState PrivacyConfig.noSpt [0, 0, 0, 0, 0, 0] 1) 0).in_use =
      false ∧
    SetData 0 false [] (tagCont CbTag.user)
      (initState PrivacyConfig.noSpt [0, 0, 0, 0, 0, 0] 1) [] =
      (initState PrivacyConfig.noSpt [0, 0, 0, 0, 0, 0] 1, [],
        [Event.hci (HciCmd.setAdvertisingData 0 COMPLETE 1 0 [])]) := by
  decide

lemma setInst_setInst {st : MgrState} {i : Nat}
    {a b : AdvertisingInstance} :
    setInst (setInst st i a) i b = setInst st i b := by
  simp [setInst, List.set_set]

/-- C6 (amended): `Unregister` on a valid `inst_id` issues the
fire-and-forget disable, cancels the RPA rotation timer and clears
`in_use`, but does not touch the `timeout_timer`: an armed timeout
timer survives, so `in_use == false` does not imply the absence of an
armed timeout timer (see the counterexample for a reachable state). -/
theorem claim_C6_amended :
    ∀ (st : MgrState) (instId : Nat) (comps : Comps),
      st.inst_count = st.adv_inst.length → instId < st.inst_count →
      (getInst (Unregister instId st comps).1 instId).in_use = false ∧
      (getInst (Unregister instId st comps).1 instId).adv_raddr_timer_armed =
        false ∧
      (getInst (Unregister instId st comps).1 instId).timeout_timer =
        (getInst st instId).timeout_timer ∧
      (Unregister instId st comps).2.2 =
        [Event.unregisterCalled instId,
         Event.hci (HciCmd.enable false instId 0x00 0x00),
         Event.alarmCancelRaddr instId] := by
  intro st instId comps hlen hlt
  have hlt' : instId < st.adv_inst.length := by omega
  unfold Unregister
  rw [if_neg (by omega)]
  simp [getInst_setInst_self hlt']

/-- Witness for the amended C6. -/
theorem claim_C6_witness :
    (getInst (Unregister 0
        (initState PrivacyConfig.noSpt [1, 2, 3, 4, 5, 6] 1) []).1 0).in_use =
      false := by
  exact (claim_C6_amended (initState PrivacyConfig.noSpt [1, 2, 3, 4, 5, 6] 1)
    0 [] (by decide) (by decide)).1

/-- Counterexample to C6 as stated: register an instance (privacy on,
so the RPA rotation timer is armed), enable it with a positive timeout
and deliver the enable completion (the timeout timer is created and
armed), then `Unregister` it.  The final state is reachable by API
calls and HCI completions alone and has `in_use = false` while the
timeout timer is still armed: `Unregister` cancels only
`adv_raddr_timer`. -/
theorem claim_C6_counterexample :
    (let st0 := initState PrivacyConfig.sptPrivacyOn [1, 2, 3, 4, 5, 6] 1
     let st1 := (RegisterAdvertiser userRegCont [17, 34, 51, 0, 0, 0, 0, 0]
       [9, 9, 9, 0] st0 []).1
     let st2 := (Enable 0 true (tagCont CbTag.user) 5 CbTag.userTimeout st1
       [(0, 0)]).1
     let st3 := (Unregister 0 st2 []).1
     (getInst st3 0).in_use = false ∧
     (getInst st3 0).adv_raddr_timer_armed = false ∧
     (getInst st3 0).timeout_timer.map (fun t => t.armed) = some true) := by
  decide

lemma fireTimeout_armed {st : MgrState} {instId : Nat} {t : TimeoutTimer}
    {comps : Comps} (htimer : (getInst st instId).timeout_timer = some t)
    (harmed : t.armed = true) :
    FireTimeoutTimer instId st comps =
      Enable instId false (tagCont t.timeoutCb) 0 CbTag.doNothing
        (setInst st instId { getInst st instId with
          timeout_timer := some { t with armed := false } }) comps := by
  unfold FireTimeoutTimer
  rw [htimer]
  simp only [if_pos harmed]

/-- C5: on a valid, in-use instance with a positive timeout, `Enable`
issues HCI `Enable(true, inst_id, 0x0000, 0x00)` and waits; on its
completion `cb(status)` runs first and only then the one-shot timeout
timer is created and armed for `timeout_s * 1000` ms, storing the
`timeout_cb`; firing that timer cancels and frees it, issues HCI
`Enable(false, inst_id, 0x0000, 0x00)` (the call passes `DoNothing` as
the new timeout argument) and delivers the disable completion to the
stored `timeout_cb`. -/
theorem claim_C5 :
    ∀ (st : MgrState) (instId : Nat) (timeoutS : Int) (tmo : CbTag),
      instId < st.inst_count → (getInst st instId).in_use = true →
      0 < timeoutS →
      (Enable instId true (tagCont CbTag.user) timeoutS tmo st [] =
        (st, [], [Event.hci (HciCmd.enable true instId 0x0000 0x00)])) ∧
      (∀ (s : Nat) (tx : Int) (rest : Comps),
        Enable instId true (tagCont CbTag.user) timeoutS tmo st
            ((s, tx) :: rest) =
          (setInst st instId { getInst st instId with
              timeout_s := timeoutS
              timeout_timer := some { armed := true, periodMs := timeoutS * 1000, timeoutCb := tmo } }, rest,
           [Event.hci (HciCmd.enable true instId 0x0000 0x00),
            Event.cb CbTag.user [(s : Int)],
            Event.alarmSetTimeout instId (timeoutS * 1000)])) ∧
      (∀ (st' : MgrState) (p : Int) (s' : Nat) (tx' : Int) (rest' : Comps),
        instId < st'.inst_count → instId < st'.adv_inst.length →
        (getInst st' instId).in_use = true →
        (getInst st' instId).timeout_timer =
          some { armed := true, periodMs := p, timeoutCb := tmo } →
        FireTimeoutTimer instId st' ((s', tx') :: rest') =
          (setInst st' instId
            { getInst st' instId with timeout_timer := none }, rest',
           [Event.alarmCancelTimeout instId,
            Event.hci (HciCmd.enable false instId 0x0000 0x00),
            Event.cb tmo [(s' : Int)]])) := by
  intro st instId timeoutS tmo hlt huse htmo
  have hcond : (true : Bool) = true ∧ timeoutS ≠ 0 := ⟨rfl, by omega⟩
  refine ⟨?_, ?_, ?_⟩
  · unfold Enable
    rw [if_neg (by omega)]
    simp [huse, show timeoutS ≠ 0 by omega]
  · intro s tx rest
    unfold Enable EnableWithTimerCb tagCont
    rw [if_neg (by omega)]
    simp [huse, show timeoutS ≠ 0 by omega]
  · intro st' p s' tx' rest' hlt2 hlt2' huse2 htimer
    rw [fireTimeout_armed htimer rfl]
    unfold Enable tagCont
    rw [if_neg (by simp only [setInst_inst_count]; omega)]
    rw [getInst_setInst_self hlt2']
    simp [huse2, setInst_setInst]

/-- Witness for C5 on a registered one-slot table. -/
theorem claim_C5_witness :
    (let st1 := (RegisterAdvertiser userRegCont [] []
       (initState PrivacyConfig.noSpt [1, 2, 3, 4, 5, 6] 1) []).1
     Enable 0 true (tagCont CbTag.user) 5 CbTag.userTimeout st1 [(0, 0)] =
       (setInst st1 0 { getInst st1 0 with
           timeout_s := 5
           timeout_timer := some { armed := true, periodMs := 5000, timeoutCb := CbTag.userTimeout } }, [],
        [Event.hci (HciCmd.enable true 0 0x0000 0x00),
         Event.cb CbTag.user [0],
         Event.alarmSetTimeout 0 5000])) := by
  have h := (claim_C5 ((RegisterAdvertiser userRegCont [] []
      (initState PrivacyConfig.noSpt [1, 2, 3, 4, 5, 6] 1) []).1) 0 5
      CbTag.userTimeout (by decide) (by decide) (by decide)).2.1 0 0 []
  exact h.trans (by decide)

lemma getD_set_self {l : List Nat} {n v d : Nat} (h : n < l.length) :
    (l.set n v).getD n d = v := by
  simp [List.getD, List.getElem?_set_self', h]

lemma getD_set_ne {l : List Nat} {n p v d : Nat} (h : n ≠ p) :
    (l.set n v).getD p d = l.getD p d := by
  simp [List.getD, List.getElem?_set_ne h]

/-- Positions visited by the AD-structure walk of `SetData`, starting
at index `i` (`fuel` is the loop variant, as in `fillTxPowerGo`). -/
def adWalkGo (data : List Nat) : Nat → Nat → List Nat
  | 0, _ => []
  | fuel + 1, i =>
    if i < data.length then i :: adWalkGo data fuel (i + data.getD i 0 + 1)
    else []

/-- Positions visited by the walk over the whole payload. -/
def adWalk (data : List Nat) : List Nat := adWalkGo data data.length 0

/-- Positions overwritten by the TX-power pass: the first value byte of
every visited structure of type `HCI_EIR_TX_POWER_LEVEL_TYPE`. -/
def adTxTargets (data : List Nat) : List Nat :=
  (adWalk data).filterMap fun j =>
    if data.getD (j + 1) 0 = HCI_EIR_TX_POWER_LEVEL_TYPE then some (j + 2)
    else none

lemma adWalkGo_succ {data : List Nat} {n i : Nat} :
    adWalkGo data (n + 1) i =
      if i < data.length then i :: adWalkGo data n (i + data.getD i 0 + 1)
      else [] := rfl

lemma fillTxPowerGo_succ {tx : Int} {data : List Nat} {n i : Nat} :
    fillTxPowerGo tx (n + 1) data i =
      (if i < data.length then
        let ty := data.getD (i + 1) 0
        let data' := if ty = HCI_EIR_TX_POWER_LEVEL_TYPE then
            data.set (i + 2) (txPowerByte tx)
          else data
        fillTxPowerGo tx n data' (i + data'.getD i 0 + 1)
      else data) := rfl

lemma adWalkGo_ge :
    ∀ (fuel : Nat) (data : List Nat) (i j : Nat),
      j ∈ adWalkGo data fuel i → i ≤ j := by
  intro fuel
  induction fuel with
  | zero => intro data i j h; simp [adWalkGo] at h
  | succ n ih =>
    intro data i j h
    rw [adWalkGo_succ] at h
    by_cases hi : i < data.length
    · rw [if_pos hi] at h
      rcases List.mem_cons.mp h with rfl | h
      · exact le_rfl
      · have := ih data _ j h
        omega
    · rw [if_neg hi] at h
      simp at h

lemma adWalkGo_congr :
    ∀ (fuel : Nat) (d1 d2 : List Nat) (i : Nat),
      d1.length = d2.length → (∀ p, i ≤ p → d1.getD p 0 = d2.getD p 0) →
      adWalkGo d1 fuel i = adWalkGo d2 fuel i := by
  intro fuel
  induction fuel with
  | zero => intro d1 d2 i _ _; rfl
  | succ n ih =>
    intro d1 d2 i hlen hag
    rw [adWalkGo_succ, adWalkGo_succ, hlen]
    by_cases h : i < d2.length
    · rw [if_pos h, if_pos h, hag i le_rfl,
        ih d1 d2 (i + d2.getD i 0 + 1) hlen (fun p hp => hag p (by omega))]
    · rw [if_neg h, if_neg h]

/-- Main property of the TX-power rewriting loop on a well-formed walk:
length is preserved, the first value byte of every visited
`HCI_EIR_TX_POWER_LEVEL_TYPE` structure becomes the TX power byte, and
every other position is untouched. -/
lemma fillTxPowerGo_spec (tx : Int) :
    ∀ (fuel : Nat) (data : List Nat) (i : Nat),
      data.length ≤ fuel + i →
      (∀ j ∈ adWalkGo data fuel i,
        2 ≤ data.getD j 0 ∧ j + data.getD j 0 + 1 ≤ data.length) →
      (fillTxPowerGo tx fuel data i).length = data.length ∧
      (∀ j ∈ adWalkGo data fuel i,
        data.getD (j + 1) 0 = HCI_EIR_TX_POWER_LEVEL_TYPE →
        (fillTxPowerGo tx fuel data i).getD (j + 2) 0 = txPowerByte tx) ∧
      (∀ p, p ∉ (adWalkGo data fuel i).filterMap
          (fun j => if data.getD (j + 1) 0 = HCI_EIR_TX_POWER_LEVEL_TYPE
            then some (j + 2) else none) →
        (fillTxPowerGo tx fuel data i).getD p 0 = data.getD p 0) := by
  intro fuel
  induction fuel with
  | zero =>
    intro data i _ _
    refine ⟨rfl, ?_, ?_⟩
    · intro j hj; simp [adWalkGo] at hj
    · intro p _; rfl
  | succ n ih =>
    intro data i hfuel hwf
    by_cases hi : i < data.length
    · have hwalk : adWalkGo data (n + 1) i =
          i :: adWalkGo data n (i + data.getD i 0 + 1) := by
        rw [adWalkGo_succ, if_pos hi]
      obtain ⟨hd2, hdlen⟩ := hwf i (by rw [hwalk]; exact List.mem_cons_self _ _)
      have hfill : fillTxPowerGo tx (n + 1) data i =
          fillTxPowerGo tx n
            (if data.getD (i + 1) 0 = HCI_EIR_TX_POWER_LEVEL_TYPE then
              data.set (i + 2) (txPowerByte tx) else data)
            (i + (if data.getD (i + 1) 0 = HCI_EIR_TX_POWER_LEVEL_TYPE then
              data.set (i + 2) (txPowerByte tx) else data).getD i 0 + 1) := by
        rw [fillTxPowerGo_succ, if_pos hi]
      by_cases hty : data.getD (i + 1) 0 = HCI_EIR_TX_POWER_LEVEL_TYPE
      · -- a TX-power structure: position i + 2 is overwritten
        set data' := data.set (i + 2) (txPowerByte tx) with hdata'
        have hlen' : data'.length = data.length := by simp [hdata']
        have hstride : data'.getD i 0 = data.getD i 0 :=
          getD_set_ne (by omega)
        have hfill2 : fillTxPowerGo tx (n + 1) data i =
            fillTxPowerGo tx n data' (i + data.getD i 0 + 1) := by
          rw [hfill, if_pos hty, hstride]
        have hag : ∀ p, i + data.getD i 0 + 1 ≤ p →
            data'.getD p 0 = data.getD p 0 := by
          intro p hp
          exact getD_set_ne (by omega)
        have hwalks : adWalkGo data' n (i + data.getD i 0 + 1) =
            adWalkGo data n (i + data.getD i 0 + 1) :=
          adWalkGo_congr n data' data _ (by omega) hag
        have htail : ∀ j ∈ adWalkGo data n (i + data.getD i 0 + 1),
            i + data.getD i 0 + 1 ≤ j :=
          fun j hj => adWalkGo_ge n data _ j hj
        have hwf' : ∀ j ∈ adWalkGo data' n (i + data.getD i 0 + 1),
            2 ≤ data'.getD j 0 ∧ j + data'.getD j 0 + 1 ≤ data'.length := by
          intro j hj
          rw [hwalks] at hj
          have hj' := htail j hj
          rw [hlen', hag j hj']
          exact hwf j (by rw [hwalk]; exact List.mem_cons_of_mem _ hj)
        obtain ⟨ih1, ih2, ih3⟩ := ih data' (i + data.getD i 0 + 1)
          (by omega) hwf'
        have htypes : ∀ j ∈ adWalkGo data n (i + data.getD i 0 + 1),
            data'.getD (j + 1) 0 = data.getD (j + 1) 0 := by
          intro j hj
          have := htail j hj
          exact hag (j + 1) (by omega)
        have htargets : (adWalkGo data' n (i + data.getD i 0 + 1)).filterMap
            (fun j => if data'.getD (j + 1) 0 = HCI_EIR_TX_POWER_LEVEL_TYPE
              then some (j + 2) else none) =
            (adWalkGo data n (i + data.getD i 0 + 1)).filterMap
            (fun j => if data.getD (j + 1) 0 = HCI_EIR_TX_POWER_LEVEL_TYPE
              then some (j + 2) else none) := by
          rw [hwalks]
          exact List.filterMap_congr (fun j hj => by rw [htypes j hj])
        have htargets_ge : ∀ p, p ∈ (adWalkGo data' n
            (i + data.getD i 0 + 1)).filterMap
            (fun j => if data'.getD (j + 1) 0 = HCI_EIR_TX_POWER_LEVEL_TYPE
              then some (j + 2) else none) → i + 2 < p := by
          intro p hp
          obtain ⟨j, hj, hjp⟩ := List.mem_filterMap.mp hp
          rw [hwalks] at hj
          have := htail j hj
          by_cases h : data'.getD (j + 1) 0 = HCI_EIR_TX_POWER_LEVEL_TYPE
          · rw [if_pos h] at hjp
            cases hjp
            omega
          · rw [if_neg h] at hjp; cases hjp
        refine ⟨?_, ?_, ?_⟩
        · rw [hfill2, ih1, hlen']
        · intro j hj hjty
          rw [hwalk] at hj
          rcases List.mem_cons.mp hj with rfl | hj
          · rw [hfill2, ih3 (j + 2) (fun hmem => by
              have := htargets_ge _ hmem; omega)]
            exact getD_set_self (by omega)
          · rw [hfill2]
            exact ih2 j (by rw [hwalks]; exact hj)
              (by rw [htypes j hj]; exact hjty)
        · intro p hp
          rw [hwalk] at hp
          have hp' : p ∉ (adWalkGo data' n (i + data.getD i 0 + 1)).filterMap
              (fun j => if data'.getD (j + 1) 0 = HCI_EIR_TX_POWER_LEVEL_TYPE
                then some (j + 2) else none) := by
            rw [htargets]
            intro hmem
            apply hp
            simp only [List.filterMap_cons, hty, if_pos]
            exact List.mem_cons_of_mem _ hmem
          have hpne : p ≠ i + 2 := by
            intro h
            apply hp
            simp only [List.filterMap_cons, hty, if_pos]
            subst h
            exact List.mem_cons_self _ _
          rw [hfill2, ih3 p hp']
          exact getD_set_ne (by omega)
      · -- not a TX-power structure: nothing written at this step
        have hfill2 : fillTxPowerGo tx (n + 1) data i =
            fillTxPowerGo tx n data (i + data.getD i 0 + 1) := by
          rw [hfill, if_neg hty]
        have hwf' : ∀ j ∈ adWalkGo data n (i + data.getD i 0 + 1),
            2 ≤ data.getD j 0 ∧ j + data.getD j 0 + 1 ≤ data.length :=
          fun j hj => hwf j (by rw [hwalk]; exact List.mem_cons_of_mem _ hj)
        obtain ⟨ih1, ih2, ih3⟩ := ih data (i + data.getD i 0 + 1)
          (by omega) hwf'
        refine ⟨by rw [hfill2]; exact ih1, ?_, ?_⟩
        · intro j hj hjty
          rw [hwalk] at hj
          rcases List.mem_cons.mp hj with rfl | hj
          · exact absurd hjty hty
          · rw [hfill2]; exact ih2 j hj hjty
        · intro p hp
          rw [hwalk] at hp
          have hp' : p ∉ (adWalkGo data n (i + data.getD i 0 + 1)).filterMap
              (fun j => if data.getD (j + 1) 0 = HCI_EIR_TX_POWER_LEVEL_TYPE
                then some (j + 2) else none) := by
            intro hmem
            apply hp
            simp only [List.filterMap_cons, hty, if_neg]
            exact hmem
          rw [hfill2]; exact ih3 p hp'
    · have hwalk : adWalkGo data (n + 1) i = [] := by
        unfold adWalkGo; rw [if_neg hi]
      have hfill2 : fillTxPowerGo tx (n + 1) data i = data := by
        rw [fillTxPowerGo_succ, if_neg hi]
      refine ⟨by rw [hfill2], ?_, ?_⟩
      · intro j hj; rw [hwalk] at hj; simp at hj
      · intro p _; rw [hfill2]

/-- The three-byte Flags AD structure prepended by `SetData` for
non-scan-response data on a legacy-connectable set
(`flags.push_back(2); flags.push_back(HCI_EIR_FLAGS_TYPE);
flags.push_back(flags_val);` with `flags_val = BTM_LIMITED_DISCOVERABLE`
when `p_inst->timeout_s` is non-zero, else `BTM_GENERAL_DISCOVERABLE`). -/
def flagsPrefix (pInst : AdvertisingInstance) : List Nat :=
  [2, HCI_EIR_FLAGS_TYPE,
   if pInst.timeout_s ≠ 0 then BTM_LIMITED_DISCOVERABLE
   else BTM_GENERAL_DISCOVERABLE]

/-- **C8**: For every `SetData` call with `is_scan_rsp = false` on an
instance whose `advertising_event_properties` have both the legacy bit
`0x10` and the connectable bit `0x01` set, the payload is preprocessed by
prepending the three bytes `{0x02, HCI_EIR_FLAGS_TYPE, v}` — where
`v = BTM_LIMITED_DISCOVERABLE (0x01)` if the instance's `timeout_s` is
non-zero and `v = BTM_GENERAL_DISCOVERABLE (0x02)` otherwise — and then
running the TX-power rewriting loop over the extended payload; whenever
the AD-structure walk (advancing by `i += data[i] + 1`) is well-formed,
the result has the same length, every visited structure of type
`HCI_EIR_TX_POWER_LEVEL_TYPE (0x0A)` has its first value byte overwritten
with the instance's effective `tx_power`, and every other byte is
unchanged. -/
theorem claim_C8 (pInst : AdvertisingInstance) (data : List Nat)
    (hlc : is_legacy_connectable pInst.advertising_event_properties)
    (hwf : ∀ j ∈ adWalk (flagsPrefix pInst ++ data),
      2 ≤ (flagsPrefix pInst ++ data).getD j 0 ∧
      j + (flagsPrefix pInst ++ data).getD j 0 + 1 ≤
        (flagsPrefix pInst ++ data).length) :
    setDataPreprocess pInst false data =
      fillTxPower pInst.tx_power (flagsPrefix pInst ++ data) ∧
    (setDataPreprocess pInst false data).length =
      (flagsPrefix pInst ++ data).length ∧
    (∀ j ∈ adWalk (flagsPrefix pInst ++ data),
      (flagsPrefix pInst ++ data).getD (j + 1) 0 =
        HCI_EIR_TX_POWER_LEVEL_TYPE →
      (setDataPreprocess pInst false data).getD (j + 2) 0 =
        txPowerByte pInst.tx_power) ∧
    (∀ p, p ∉ adTxTargets (flagsPrefix pInst ++ data) →
      (setDataPreprocess pInst false data).getD p 0 =
        (flagsPrefix pInst ++ data).getD p 0) := by
  have heq : setDataPreprocess pInst false data =
      fillTxPower pInst.tx_power (flagsPrefix pInst ++ data) := by
    simp [setDataPreprocess, flagsPrefix, hlc]
  have hspec := fillTxPowerGo_spec pInst.tx_power
    (flagsPrefix pInst ++ data).length (flagsPrefix pInst ++ data) 0
    (by omega) hwf
  refine ⟨heq, ?_, ?_, ?_⟩
  · rw [heq]; exact hspec.1
  · intro j hj hty
    rw [heq]
    exact hspec.2.1 j hj hty
  · intro p hp
    rw [heq]
    exact hspec.2.2 p hp

/-- Witness for C8: instance with `advertising_event_properties = 0x11`
(legacy-connectable), `timeout_s = 0` and `tx_power = 9`; payload
`[2, 0x0A, 0]` becomes (after the Flags prepend) `[2, 1, 2, 2, 10, 0]`,
whose TX-power structure at index 3 gets its first value byte (index 5)
overwritten with `9`. -/
theorem claim_C8_witness :
    (setDataPreprocess
      { initInstance 0 with advertising_event_properties := 0x11, tx_power := 9 }
      false [2, HCI_EIR_TX_POWER_LEVEL_TYPE, 0]).getD 5 0 = txPowerByte 9 :=
  (claim_C8
    { initInstance 0 with advertising_event_properties := 0x11, tx_power := 9 }
    [2, HCI_EIR_TX_POWER_LEVEL_TYPE, 0] (by decide) (by decide)).2.2.1
    3 (by decide) (by decide)

/-- Events relevant to the compensation ordering of `StartAdvertisingSet`:
the `Unregister` entry marker and the user-callback invocations, in trace
order. -/
def lcEvents (evs : List Event) : List Event :=
  evs.filter fun e => match e with
    | .unregisterCalled _ => true
    | .cb _ _ => true
    | _ => false

/-- The allocation flags of instance `i`: `(in_use, adv_raddr_timer_armed)`. -/
def instFlags (st : MgrState) (i : Nat) : Bool × Bool :=
  ((getInst st i).in_use, (getInst st i).adv_raddr_timer_armed)

/-- Specification-side chain executor: issue the commands in order, one
pending completion per command; a non-zero completion status stops the
chain.  Returns the issued commands together with `none` when the
completions ran out mid-chain, or `some (status, leftover)`, where
`status = 0` exactly when every command completed successfully. -/
def chainRun : List HciCmd → Comps → List HciCmd × Option (Nat × Comps)
  | [], comps => ([], some (0, comps))
  | cmd :: _, [] => ([cmd], none)
  | cmd :: cmds, (s, _) :: comps' =>
    if s ≠ 0 then ([cmd], some (s, comps'))
    else
      let (issued, r) := chainRun cmds comps'
      (cmd :: issued, r)

/-- Projection equality of two step outcomes: same allocation flags of
instance `j`, same leftover completions, same HCI commands, same user
callbacks and same compensation-relevant events. -/
def projEq (j : Nat) (a b : MgrState × Comps × List Event) : Prop :=
  instFlags a.1 j = instFlags b.1 j ∧ a.2.1 = b.2.1 ∧
  hciEvents a.2.2 = hciEvents b.2.2 ∧ cbEvents a.2.2 = cbEvents b.2.2 ∧
  lcEvents a.2.2 = lcEvents b.2.2

/-- `f`, run from state `st` on the pending completions `comps`, behaves
as the strictly ordered command chain `cmds` finished by `done`: the HCI
commands issued are exactly the `chainRun` prefix of `cmds` (each next
command gated on a zero completion status); when the completions run out
the run stops, still awaiting, with no callback; otherwise the run ends
in `done s` — `s` being the first non-zero status, or `0` after the
whole chain — observed through the leftover completions, the
HCI/callback/compensation projections of the trace, and, on failure, the
allocation flags of instance `j`. -/
def ChainsTo (j : Nat) (f : Step) (st : MgrState) (cmds : List HciCmd)
    (done : Nat → Step) (comps : Comps) : Prop :=
  match chainRun cmds comps with
  | (issued, none) =>
    (f st comps).2.1 = [] ∧ hciEvents (f st comps).2.2 = issued ∧
    cbEvents (f st comps).2.2 = [] ∧ lcEvents (f st comps).2.2 = []
  | (issued, some (s, rest)) =>
    instFlags (f st comps).1 j = instFlags (done s st rest).1 j ∧
    (f st comps).2.1 = (done s st rest).2.1 ∧
    hciEvents (f st comps).2.2 = issued ++ hciEvents (done s st rest).2.2 ∧
    cbEvents (f st comps).2.2 = cbEvents (done s st rest).2.2 ∧
    lcEvents (f st comps).2.2 = lcEvents (done s st rest).2.2

/-- `ChainsTo` for every completion sequence. -/
def RunsChain (j : Nat) (f : Step) (st : MgrState) (cmds : List HciCmd)
    (done : Nat → Step) : Prop :=
  ∀ comps, ChainsTo j f st cmds done comps

lemma hciEvents_cons_hci {c : HciCmd} {l : List Event} :
    hciEvents (Event.hci c :: l) = c :: hciEvents l := rfl

lemma cbEvents_cons_hci {c : HciCmd} {l : List Event} :
    cbEvents (Event.hci c :: l) = cbEvents l := rfl

lemma lcEvents_cons_hci {c : HciCmd} {l : List Event} :
    lcEvents (Event.hci c :: l) = lcEvents l := rfl

lemma hciEvents_map_hci (l : List HciCmd) : hciEvents (l.map Event.hci) = l := by
  induction l with
  | nil => rfl
  | cons c cs ih => rw [List.map_cons, hciEvents_cons_hci, ih]

lemma cbEvents_map_hci (l : List HciCmd) : cbEvents (l.map Event.hci) = [] := by
  induction l with
  | nil => rfl
  | cons c cs ih => rw [List.map_cons, cbEvents_cons_hci, ih]

lemma lcEvents_map_hci (l : List HciCmd) : lcEvents (l.map Event.hci) = [] := by
  induction l with
  | nil => rfl
  | cons c cs ih => rw [List.map_cons, lcEvents_cons_hci, ih]

lemma hciEvents_append (a b : List Event) :
    hciEvents (a ++ b) = hciEvents a ++ hciEvents b := by
  simp [hciEvents, List.filterMap_append]

lemma cbEvents_append (a b : List Event) :
    cbEvents (a ++ b) = cbEvents a ++ cbEvents b := by
  simp [cbEvents, List.filterMap_append]

lemma lcEvents_append (a b : List Event) :
    lcEvents (a ++ b) = lcEvents a ++ lcEvents b := by
  simp [lcEvents, List.filter_append]

lemma chainRun_nil {comps : Comps} : chainRun [] comps = ([], some (0, comps)) := rfl

lemma chainRun_cons_nil {cmd : HciCmd} {cmds : List HciCmd} :
    chainRun (cmd :: cmds) [] = ([cmd], none) := rfl

lemma chainRun_cons_cons {cmd : HciCmd} {cmds : List HciCmd} {s : Nat} {t : Int}
    {comps' : Comps} :
    chainRun (cmd :: cmds) ((s, t) :: comps') =
      if s ≠ 0 then ([cmd], some (s, comps'))
      else (cmd :: (chainRun cmds comps').1, (chainRun cmds comps').2) := by
  by_cases hs : s = 0
  · subst hs
    rcases hq : chainRun cmds comps' with ⟨is2, r2⟩
    simp [chainRun, hq]
  · simp [chainRun, hs]

lemma chainRun_append_none :
    ∀ {c1 : List HciCmd} {comps : Comps} {h1 : List HciCmd}
      (c2 : List HciCmd), chainRun c1 comps = (h1, none) →
      chainRun (c1 ++ c2) comps = (h1, none) := by
  intro c1
  induction c1 with
  | nil => intro comps h1 c2 h; cases h
  | cons cmd cmds ih =>
    intro comps h1 c2 h
    cases comps with
    | nil =>
      rw [chainRun_cons_nil] at h
      obtain ⟨rfl, -⟩ := Prod.mk.injEq .. ▸ h
      rfl
    | cons z comps' =>
      obtain ⟨s, t⟩ := z
      by_cases hs : s = 0
      · subst hs
        rw [chainRun_cons_cons, if_neg (by omega)] at h
        rcases hq : chainRun cmds comps' with ⟨is2, r2⟩
        rw [hq] at h
        simp only [Prod.mk.injEq] at h
        obtain ⟨rfl, hr⟩ := h
        rw [List.cons_append, chainRun_cons_cons, if_neg (by omega),
          ih c2 (by rw [hq, hr])]
      · rw [chainRun_cons_cons, if_pos hs] at h
        cases h

lemma chainRun_append_zero :
    ∀ {c1 : List HciCmd} {comps : Comps} {h1 : List HciCmd} {rest : Comps}
      (c2 : List HciCmd), chainRun c1 comps = (h1, some (0, rest)) →
      chainRun (c1 ++ c2) comps =
        (h1 ++ (chainRun c2 rest).1, (chainRun c2 rest).2) := by
  intro c1
  induction c1 with
  | nil =>
    intro comps h1 rest c2 h
    rw [chainRun_nil] at h
    simp only [Prod.mk.injEq, Option.some.injEq] at h
    obtain ⟨rfl, -, rfl⟩ := h
    simp
  | cons cmd cmds ih =>
    intro comps h1 rest c2 h
    cases comps with
    | nil =>
      rw [chainRun_cons_nil] at h
      simp at h
    | cons z comps' =>
      obtain ⟨s, t⟩ := z
      by_cases hs : s = 0
      · subst hs
        rw [chainRun_cons_cons, if_neg (by omega)] at h
        rcases hq : chainRun cmds comps' with ⟨is2, r2⟩
        rw [hq] at h
        simp only [Prod.mk.injEq] at h
        obtain ⟨rfl, hr⟩ := h
        rw [List.cons_append, chainRun_cons_cons, if_neg (by omega),
          ih c2 (by rw [hq, hr])]
        simp
      · rw [chainRun_cons_cons, if_pos hs] at h
        simp only [Prod.mk.injEq, Option.some.injEq] at h
        omega

lemma chainRun_append_fail :
    ∀ {c1 : List HciCmd} {comps : Comps} {h1 : List HciCmd} {s : Nat}
      {rest : Comps} (c2 : List HciCmd), chainRun c1 comps = (h1, some (s, rest)) →
      s ≠ 0 → chainRun (c1 ++ c2) comps = (h1, some (s, rest)) := by
  intro c1
  induction c1 with
  | nil =>
    intro comps h1 s rest c2 h hs
    rw [chainRun_nil] at h
    simp only [Prod.mk.injEq, Option.some.injEq] at h
    omega
  | cons cmd cmds ih =>
    intro comps h1 s rest c2 h hs
    cases comps with
    | nil =>
      rw [chainRun_cons_nil] at h
      simp at h
    | cons z comps' =>
      obtain ⟨s0, t⟩ := z
      by_cases hs0 : s0 = 0
      · subst hs0
        rw [chainRun_cons_cons, if_neg (by omega)] at h
        rcases hq : chainRun cmds comps' with ⟨is2, r2⟩
        rw [hq] at h
        simp only [Prod.mk.injEq] at h
        obtain ⟨rfl, hr⟩ := h
        rw [List.cons_append, chainRun_cons_cons, if_neg (by omega),
          ih c2 (by rw [hq, hr]) hs]
      · rw [chainRun_cons_cons, if_pos hs0] at h
        rw [List.cons_append, chainRun_cons_cons, if_pos hs0]
        exact h

lemma chainRun_all :
    ∀ (cmds : List HciCmd) (zs rest : Comps),
      zs.length = cmds.length → allZeroSt zs →
      chainRun cmds (zs ++ rest) = (cmds, some (0, rest)) := by
  intro cmds
  induction cmds with
  | nil =>
    intro zs rest hlen _
    have hz : zs = [] := List.length_eq_zero.mp (by simpa using hlen)
    subst hz
    rfl
  | cons cmd cs ih =>
    intro zs rest hlen hz
    cases zs with
    | nil => simp at hlen
    | cons z zs' =>
      obtain ⟨s, t⟩ := z
      have hs : s = 0 := hz (s, t) (by simp)
      subst hs
      have hz' : allZeroSt zs' := fun p hp => hz p (by simp [hp])
      simp [chainRun, ih zs' rest (by simpa using hlen) hz']

lemma chainRun_short :
    ∀ (cmds : List HciCmd) (comps : Comps),
      allZeroSt comps → comps.length < cmds.length →
      chainRun cmds comps = (cmds.take (comps.length + 1), none) := by
  intro cmds
  induction cmds with
  | nil => intro comps _ h; simp at h
  | cons cmd cs ih =>
    intro comps hz hlt
    cases comps with
    | nil => rfl
    | cons z tl =>
      obtain ⟨s, t⟩ := z
      have hs : s = 0 := hz (s, t) (by simp)
      subst hs
      have hz' : allZeroSt tl := fun p hp => hz p (by simp [hp])
      simp [chainRun, ih tl hz' (by simpa using hlt)]

lemma chainRun_fail :
    ∀ (cmds : List HciCmd) (zs : Comps) (s : Nat) (t : Int) (rest : Comps),
      allZeroSt zs → s ≠ 0 → zs.length < cmds.length →
      chainRun cmds (zs ++ (s, t) :: rest) =
        (cmds.take (zs.length + 1), some (s, rest)) := by
  intro cmds
  induction cmds with
  | nil => intro zs s t rest _ _ h; simp at h
  | cons cmd cs ih =>
    intro zs s t rest hz hs hlt
    cases zs with
    | nil => simp [chainRun, hs]
    | cons z zs' =>
      obtain ⟨s0, t0⟩ := z
      have hs0 : s0 = 0 := hz (s0, t0) (by simp)
      subst hs0
      have hz' : allZeroSt zs' := fun p hp => hz p (by simp [hp])
      simp [chainRun, ih zs' s t rest hz' hs (by simpa using hlt)]

/-- The send loop is the `chainRun` of the mapped fragment commands. -/
lemma sendLoop_chainRun {mkC : Nat → Nat → List Nat → HciCmd} :
    ∀ (frags : List (Nat × List Nat)) (comps : Comps),
      sendLoop (fun op len chunk => Event.hci (mkC op len chunk)) frags comps =
        ((chainRun (frags.map fun f => mkC f.1 f.2.length f.2) comps).1.map Event.hci,
         (chainRun (frags.map fun f => mkC f.1 f.2.length f.2) comps).2) := by
  intro frags
  induction frags with
  | nil => intro comps; rfl
  | cons f fs ih =>
    intro comps
    obtain ⟨op, chunk⟩ := f
    cases comps with
    | nil => rfl
    | cons z tl =>
      obtain ⟨s, t⟩ := z
      by_cases hs : s = 0
      · subst hs
        simp [sendLoop, chainRun, ih tl]
      · simp [sendLoop, chainRun, hs]


lemma cbEvents_cons_cb {t : CbTag} {a : List Int} {l : List Event} :
    cbEvents (Event.cb t a :: l) = (t, a) :: cbEvents l := rfl

lemma hciEvents_cons_cb {t : CbTag} {a : List Int} {l : List Event} :
    hciEvents (Event.cb t a :: l) = hciEvents l := rfl

lemma lcEvents_cons_cb {t : CbTag} {a : List Int} {l : List Event} :
    lcEvents (Event.cb t a :: l) = Event.cb t a :: lcEvents l := rfl

lemma hciEvents_cons_unreg {i : Nat} {l : List Event} :
    hciEvents (Event.unregisterCalled i :: l) = hciEvents l := rfl

lemma cbEvents_cons_unreg {i : Nat} {l : List Event} :
    cbEvents (Event.unregisterCalled i :: l) = cbEvents l := rfl

lemma lcEvents_cons_unreg {i : Nat} {l : List Event} :
    lcEvents (Event.unregisterCalled i :: l) =
      Event.unregisterCalled i :: lcEvents l := rfl

lemma hciEvents_cons_setRaddr {i : Nat} {p : Int} {l : List Event} :
    hciEvents (Event.alarmSetRaddr i p :: l) = hciEvents l := rfl

lemma cbEvents_cons_setRaddr {i : Nat} {p : Int} {l : List Event} :
    cbEvents (Event.alarmSetRaddr i p :: l) = cbEvents l := rfl

lemma lcEvents_cons_setRaddr {i : Nat} {p : Int} {l : List Event} :
    lcEvents (Event.alarmSetRaddr i p :: l) = lcEvents l := rfl

lemma hciEvents_cons_setTimeout {i : Nat} {p : Int} {l : List Event} :
    hciEvents (Event.alarmSetTimeout i p :: l) = hciEvents l := rfl

lemma cbEvents_cons_setTimeout {i : Nat} {p : Int} {l : List Event} :
    cbEvents (Event.alarmSetTimeout i p :: l) = cbEvents l := rfl

lemma lcEvents_cons_setTimeout {i : Nat} {p : Int} {l : List Event} :
    lcEvents (Event.alarmSetTimeout i p :: l) = lcEvents l := rfl

lemma hciEvents_cons_cancelRaddr {i : Nat} {l : List Event} :
    hciEvents (Event.alarmCancelRaddr i :: l) = hciEvents l := rfl

lemma cbEvents_cons_cancelRaddr {i : Nat} {l : List Event} :
    cbEvents (Event.alarmCancelRaddr i :: l) = cbEvents l := rfl

lemma lcEvents_cons_cancelRaddr {i : Nat} {l : List Event} :
    lcEvents (Event.alarmCancelRaddr i :: l) = lcEvents l := rfl

lemma hciEvents_cons_cancelTimeout {i : Nat} {l : List Event} :
    hciEvents (Event.alarmCancelTimeout i :: l) = hciEvents l := rfl

lemma cbEvents_cons_cancelTimeout {i : Nat} {l : List Event} :
    cbEvents (Event.alarmCancelTimeout i :: l) = cbEvents l := rfl

lemma lcEvents_cons_cancelTimeout {i : Nat} {l : List Event} :
    lcEvents (Event.alarmCancelTimeout i :: l) = lcEvents l := rfl

lemma projEq_refl {j : Nat} (a : MgrState × Comps × List Event) : projEq j a a :=
  ⟨rfl, rfl, rfl, rfl, rfl⟩

lemma projEq_of_eq {j : Nat} {a b : MgrState × Comps × List Event} (h : a = b) :
    projEq j a b := h ▸ projEq_refl a

/-- Chains compose: a chain handing off with status zero to `g`, with `g`
chaining on to `done`, is the concatenated chain to `done`. -/
lemma runsChain_comp {j : Nat} {f g : Step} {st : MgrState}
    {cmds1 cmds2 : List HciCmd} {d1 done : Nat → Step}
    (h0 : ∀ comps', d1 0 st comps' = g st comps')
    (hne : ∀ s, s ≠ 0 → ∀ rest, projEq j (d1 s st rest) (done s st rest))
    (hf : RunsChain j f st cmds1 d1) (hg : RunsChain j g st cmds2 done) :
    RunsChain j f st (cmds1 ++ cmds2) done := by
  intro comps
  have Hf := hf comps
  unfold ChainsTo at Hf ⊢
  rcases h1 : chainRun cmds1 comps with ⟨is1, r1⟩
  rw [h1] at Hf
  rcases r1 with - | ⟨s, rest⟩
  · rw [chainRun_append_none cmds2 h1]
    exact Hf
  · by_cases hs : s = 0
    · subst hs
      rw [chainRun_append_zero cmds2 h1]
      have Hg := hg rest
      unfold ChainsTo at Hg
      rcases h2 : chainRun cmds2 rest with ⟨is2, r2⟩
      rw [h2] at Hg
      obtain ⟨hff, hfc, hfh, hfcb, hflc⟩ := Hf
      rw [h0 rest] at hff hfc hfh hfcb hflc
      rcases r2 with - | ⟨s2, rest2⟩
      · obtain ⟨hgc, hgh, hgcb, hglc⟩ := Hg
        exact ⟨hfc.trans hgc, by rw [hfh, hgh],
          hfcb.trans hgcb, hflc.trans hglc⟩
      · obtain ⟨hgf, hgc, hgh, hgcb, hglc⟩ := Hg
        exact ⟨hff.trans hgf, hfc.trans hgc,
          by rw [hfh, hgh, List.append_assoc],
          hfcb.trans hgcb, hflc.trans hglc⟩
    · rw [chainRun_append_fail cmds2 h1 hs]
      obtain ⟨hff, hfc, hfh, hfcb, hflc⟩ := Hf
      obtain ⟨e1, e2, e3, e4, e5⟩ := hne s hs rest
      exact ⟨hff.trans e1, hfc.trans e2, by rw [hfh, e3],
        hfcb.trans e4, hflc.trans e5⟩

/-- A step that emits one HCI command and hands the completion status to
`k` runs the one-command chain to `k`. -/
lemma emitAwait_runsChain {j : Nat} {cmd : HciCmd} {k : Nat → Step}
    {st : MgrState} {f : Step}
    (hf : ∀ comps, f st comps =
      match comps with
      | [] => (st, [], [Event.hci cmd])
      | (s, _) :: rest =>
        ((k s st rest).1, (k s st rest).2.1, Event.hci cmd :: (k s st rest).2.2)) :
    RunsChain j f st [cmd] k := by
  intro comps
  unfold ChainsTo
  rcases comps with - | ⟨⟨s, t⟩, rest⟩
  · rw [chainRun_cons_nil, hf]
    exact ⟨rfl, rfl, rfl, rfl⟩
  · have hcr : chainRun [cmd] ((s, t) :: rest) = ([cmd], some (s, rest)) := by
      by_cases hs : s = 0
      · subst hs; rw [chainRun_cons_cons, if_neg (by omega)]; rfl
      · rw [chainRun_cons_cons, if_pos hs]
    rw [hcr, hf]
    exact ⟨rfl, rfl, by rw [hciEvents_cons_hci]; rfl,
      by rw [cbEvents_cons_hci], by rw [lcEvents_cons_hci]⟩

/-- Fragment commands of a payload under the sender `mk`. -/
def fragCmds (mk : Nat → Nat → Nat → List Nat → HciCmd) (instId : Nat)
    (data : List Nat) : List HciCmd :=
  (fragments data).map fun f => mk instId f.1 f.2.length f.2

/-- The fragmenter runs the fragment-command chain to its done
callback. -/
lemma divideAndSend_runsChain {j instId : Nat} {data : List Nat}
    {k : Nat → Step} {mk : Nat → Nat → Nat → List Nat → HciCmd}
    {st : MgrState} :
    RunsChain j (DivideAndSendData instId data k mk) st
      (fragCmds mk instId data) k := by
  intro comps
  have hdiv := @divide_eq_sendLoop instId data mk k
    comps true 0 (data.length + 1) st (by omega) (by omega)
  have hsl := @sendLoop_chainRun (fun op len chunk => mk instId op len chunk)
    (fragments data) comps
  unfold ChainsTo
  unfold DivideAndSendData
  rw [hdiv]
  rw [show fragmentsFromGo data (data.length + 1) true 0 = fragments data from rfl,
    hsl]
  rcases hcr : chainRun (fragCmds mk instId data) comps with ⟨issued, r⟩
  have hcr' : chainRun ((fragments data).map fun f =>
      mk instId f.1 f.2.length f.2) comps = (issued, r) := hcr
  rw [hcr']
  rcases r with - | ⟨s, rest⟩
  · refine ⟨rfl, ?_, ?_, ?_⟩
    · show hciEvents (issued.map Event.hci) = issued
      exact hciEvents_map_hci issued
    · exact cbEvents_map_hci issued
    · exact lcEvents_map_hci issued
  · rcases hk : k s st rest with ⟨a, b, c⟩
    have hassemble : assembleLoop k st (issued.map Event.hci, some (s, rest)) =
        (a, b, issued.map Event.hci ++ c) := by
      simp [assembleLoop, hk]
    rw [hassemble]
    refine ⟨by rw [hk], by rw [hk], ?_, ?_, ?_⟩ <;> rw [hk]
    · show hciEvents (issued.map Event.hci ++ c) = issued ++ hciEvents c
      rw [hciEvents_append, hciEvents_map_hci]
    · show cbEvents (issued.map Event.hci ++ c) = cbEvents c
      rw [cbEvents_append, cbEvents_map_hci, List.nil_append]
    · show lcEvents (issued.map Event.hci ++ c) = lcEvents c
      rw [lcEvents_append, lcEvents_map_hci, List.nil_append]

/-- `SetData` on a valid instance id runs the fragment-command chain of
the preprocessed payload. -/
lemma setData_runsChain {j i : Nat} {isScanRsp : Bool} {data : List Nat}
    {k : Nat → Step} {st : MgrState} (hi : i < st.inst_count) :
    RunsChain j (SetData i isScanRsp data k) st
      (fragCmds (SetDataAdvDataSender isScanRsp) i
        (setDataPreprocess (getInst st i) isScanRsp data)) k := by
  intro comps
  have h := @divideAndSend_runsChain j i
    (setDataPreprocess (getInst st i) isScanRsp data) k
    (SetDataAdvDataSender isScanRsp) st comps
  unfold ChainsTo at h ⊢
  have hrw : SetData i isScanRsp data k st comps =
      DivideAndSendData i (setDataPreprocess (getInst st i) isScanRsp data) k
        (SetDataAdvDataSender isScanRsp) st comps := by
    unfold SetData
    rw [if_neg (by omega)]
  rw [hrw]
  exact h

lemma setInst_oob {st : MgrState} {i : Nat} {v : AdvertisingInstance}
    (h : st.adv_inst.length ≤ i) : setInst st i v = st := by
  unfold setInst
  rw [List.set_eq_of_length_le h]

/-- Updating only non-flag fields of an instance preserves the
allocation flags of every instance. -/
lemma instFlags_setInst_preserve {st : MgrState} {i : Nat} (j : Nat)
    {v : AdvertisingInstance}
    (hin : v.in_use = (getInst st i).in_use)
    (hra : v.adv_raddr_timer_armed = (getInst st i).adv_raddr_timer_armed) :
    instFlags (setInst st i v) j = instFlags st j := by
  unfold instFlags
  by_cases hj : j = i
  · subst hj
    by_cases hl : j < st.adv_inst.length
    · rw [getInst_setInst_self hl, hin, hra]
    · rw [setInst_oob (by omega)]
  · rw [getInst_setInst_ne (fun h => hj h.symm)]

/-- `Enable(inst_id, true, cb, ts, tcb)` on a valid in-use instance runs
the one-command chain of the HCI enable to `cb`, for any timeout;
the timer bookkeeping around `cb` does not touch the projections,
provided `cb` itself is insensitive to the cancelled `timeout_timer`
field. -/
lemma enable_runsChain {j i : Nat} {cb : Nat → Step} {ts : Int} {tcb : CbTag}
    {st : MgrState} (hi : i < st.inst_count) (hu : (getInst st i).in_use = true)
    (hcb : ∀ s rest, projEq j
      (cb s (setInst st i { getInst st i with timeout_timer := none }) rest)
      (cb s st rest)) :
    RunsChain j (Enable i true cb ts tcb) st [HciCmd.enable true i 0 0] cb := by
  intro comps
  unfold ChainsTo
  rcases comps with - | ⟨⟨s, t⟩, rest⟩
  · rw [chainRun_cons_nil]
    by_cases hts : ts = 0
    · by_cases htt : (getInst st i).timeout_timer.isSome
      · have hrun : Enable i true cb ts tcb st [] =
            (setInst st i { getInst st i with timeout_timer := none }, [],
             [Event.alarmCancelTimeout i, Event.hci (HciCmd.enable true i 0 0)]) := by
          unfold Enable
          rw [if_neg (by omega)]
          simp [hu, hts, htt]
        rw [hrun]
        exact ⟨rfl, rfl, rfl, rfl⟩
      · have hrun : Enable i true cb ts tcb st [] =
            (st, [], [Event.hci (HciCmd.enable true i 0 0)]) := by
          unfold Enable
          rw [if_neg (by omega)]
          simp [hu, hts, htt]
        rw [hrun]
        exact ⟨rfl, rfl, rfl, rfl⟩
    · have hrun : Enable i true cb ts tcb st [] =
          (st, [], [Event.hci (HciCmd.enable true i 0 0)]) := by
        unfold Enable
        rw [if_neg (by omega)]
        simp [hu, hts]
      rw [hrun]
      exact ⟨rfl, rfl, rfl, rfl⟩
  · have hcr : chainRun [HciCmd.enable true i 0 0] ((s, t) :: rest) =
        ([HciCmd.enable true i 0 0], some (s, rest)) := by
      by_cases hs : s = 0
      · subst hs; rw [chainRun_cons_cons, if_neg (by omega)]; rfl
      · rw [chainRun_cons_cons, if_pos hs]
    rw [hcr]
    by_cases hts : ts = 0
    · by_cases htt : (getInst st i).timeout_timer.isSome
      · rcases hq : cb s (setInst st i { getInst st i with timeout_timer := none }) rest
          with ⟨a, b, c⟩
        obtain ⟨e1, e2, e3, e4, e5⟩ := hcb s rest
        rw [hq] at e1 e2 e3 e4 e5
        simp only [hu] at hq
        have hrun : Enable i true cb ts tcb st ((s, t) :: rest) =
            (a, b, Event.alarmCancelTimeout i ::
              Event.hci (HciCmd.enable true i 0 0) :: c) := by
          unfold Enable
          rw [if_neg (by omega)]
          simp [hu, hts, htt, hq]
        rw [hrun]
        refine ⟨e1, e2, ?_, ?_, ?_⟩
        · rw [hciEvents_cons_cancelTimeout, hciEvents_cons_hci]
          rw [show hciEvents c = hciEvents (a, b, c).2.2 from rfl, e3]
          rfl
        · rw [cbEvents_cons_cancelTimeout, cbEvents_cons_hci]
          rw [show cbEvents c = cbEvents (a, b, c).2.2 from rfl, e4]
        · rw [lcEvents_cons_cancelTimeout, lcEvents_cons_hci]
          rw [show lcEvents c = lcEvents (a, b, c).2.2 from rfl, e5]
      · have hrun : Enable i true cb ts tcb st ((s, t) :: rest) =
            ((cb s st rest).1, (cb s st rest).2.1,
             Event.hci (HciCmd.enable true i 0 0) :: (cb s st rest).2.2) := by
          unfold Enable
          rw [if_neg (by omega)]
          rcases hq : cb s st rest with ⟨a, b, c⟩
          simp [hu, hts, htt, hq]
        rw [hrun]
        exact ⟨rfl, rfl, by rw [hciEvents_cons_hci]; rfl,
          by rw [cbEvents_cons_hci], by rw [lcEvents_cons_hci]⟩
    · rcases hq : cb s st rest with ⟨a, b, c⟩
      have hrun : Enable i true cb ts tcb st ((s, t) :: rest) =
          (setInst a i { getInst a i with
             timeout_s := ts
             timeout_timer := some { armed := true, periodMs := ts * 1000, timeoutCb := tcb } },
           b,
           Event.hci (HciCmd.enable true i 0 0) ::
             (c ++ [Event.alarmSetTimeout i (ts * 1000)])) := by
        unfold Enable EnableWithTimerCb
        rw [if_neg (by omega)]
        simp [hu, hts, hq]
      rw [hrun]
      refine ⟨?_, ?_, ?_, ?_, ?_⟩ <;> rw [hq]
      · exact instFlags_setInst_preserve j rfl rfl
      · rw [hciEvents_cons_hci, hciEvents_append,
          show hciEvents [Event.alarmSetTimeout i (ts * 1000)] = [] from rfl,
          List.append_nil]
        rfl
      · rw [cbEvents_cons_hci, cbEvents_append,
          show cbEvents [Event.alarmSetTimeout i (ts * 1000)] = [] from rfl,
          List.append_nil]
      · rw [lcEvents_cons_hci, lcEvents_append,
          show lcEvents [Event.alarmSetTimeout i (ts * 1000)] = [] from rfl,
          List.append_nil]


/-- The HCI SetParameters command emitted by `SetParameters` for the
pre-call instance `pInst` (own address fields are unchanged by the
parameter store; the TX power sent is the requested one). -/
def setParametersCmd (instId : Nat) (p : AdvParams)
    (pInst : AdvertisingInstance) : HciCmd :=
  HciCmd.setParameters instId p.advertising_event_properties p.adv_int_min
    p.adv_int_max p.channel_map pInst.own_address_type pInst.own_address 0x00
    [0, 0, 0, 0, 0, 0] p.adv_filter_policy p.tx_power
    p.primary_advertising_phy 0x01 p.secondary_advertising_phy 0x01
    p.scan_request_notification_enable

/-- The instance record after the `SetParameters` store and the granted
TX power write of the `SetParameters` completion lambda. -/
def postParamsInst (pInst : AdvertisingInstance) (p : AdvParams)
    (tx1 : Int) : AdvertisingInstance :=
  { pInst with
    advertising_event_properties := p.advertising_event_properties % 256
    tx_power := tx1 }

/-- Commands of the `StartAdvertising` chain after `SetParameters`,
read off the instance record in force at that point. -/
def saTailChain (c : SACreatorParams) (pInst2 : AdvertisingInstance) :
    List HciCmd :=
  HciCmd.setRandomAddress c.inst_id pInst2.own_address ::
    (fragCmds (SetDataAdvDataSender false) c.inst_id
      (setDataPreprocess pInst2 false c.advertise_data) ++
     (fragCmds (SetDataAdvDataSender true) c.inst_id
       (setDataPreprocess pInst2 true c.scan_response_data) ++
      [HciCmd.enable true c.inst_id 0 0]))

/-- The full `StartAdvertising` command chain, given the pre-call
instance and the granted TX power of the first completion. -/
def saChain (c : SACreatorParams) (pInst : AdvertisingInstance)
    (tx1 : Int) : List HciCmd :=
  setParametersCmd c.inst_id c.params pInst ::
    saTailChain c (postParamsInst pInst c.params tx1)

/-- Tail of `StartAdvertising` after a successful `SetParameters`
completion (the else-branch of the `SetParameters` lambda, at the state
with the granted TX power already stored): issue `SetRandomAddress` with
the instance's own address and continue. -/
def saAfterParams (c : SACreatorParams) : Step := fun st comps =>
  let rpa := (getInst st c.inst_id).own_address
  let ev := Event.hci (.setRandomAddress c.inst_id rpa)
  match comps with
  | [] => (st, [], [ev])
  | (s, _) :: rest =>
    let (st', c', evs) := sa_onSetRandomAddress c s st rest
    (st', c', ev :: evs)

lemma sa_onSetParameters_ok {c : SACreatorParams} {tx : Int} {st : MgrState}
    {comps : Comps} :
    sa_onSetParameters c 0 tx st comps =
      saAfterParams c
        (setInst st c.inst_id { getInst st c.inst_id with tx_power := tx })
        comps := by
  rfl

lemma tagCont_cancel_projEq {j i : Nat} {t : CbTag} {st : MgrState} :
    ∀ (s : Nat) (rest : Comps), projEq j
      (tagCont t s (setInst st i { getInst st i with timeout_timer := none }) rest)
      (tagCont t s st rest) := by
  intro s rest
  exact ⟨instFlags_setInst_preserve j rfl rfl, rfl, rfl, rfl, rfl⟩

lemma setParameters_run_nil {i : Nat} {p : AdvParams} {cb : Nat → Int → Step}
    {st : MgrState} (hi : i < st.inst_count) (hlen : i < st.adv_inst.length)
    (hu : (getInst st i).in_use = true) :
    SetParameters i p cb st [] =
      (setInst st i { getInst st i with
         advertising_event_properties := p.advertising_event_properties % 256
         tx_power := p.tx_power }, [],
       [Event.hci (setParametersCmd i p (getInst st i))]) := by
  unfold SetParameters setParametersCmd
  rw [if_neg (by omega)]
  simp [hu, getInst_setInst_self hlen]

lemma setParameters_run_cons {i : Nat} {p : AdvParams} {cb : Nat → Int → Step}
    {st : MgrState} {s : Nat} {tx : Int} {rest : Comps}
    (hi : i < st.inst_count) (hlen : i < st.adv_inst.length)
    (hu : (getInst st i).in_use = true) :
    SetParameters i p cb st ((s, tx) :: rest) =
      ((cb s tx (setInst st i { getInst st i with
          advertising_event_properties := p.advertising_event_properties % 256
          tx_power := p.tx_power }) rest).1,
       (cb s tx (setInst st i { getInst st i with
          advertising_event_properties := p.advertising_event_properties % 256
          tx_power := p.tx_power }) rest).2.1,
       Event.hci (setParametersCmd i p (getInst st i)) ::
         (cb s tx (setInst st i { getInst st i with
            advertising_event_properties := p.advertising_event_properties % 256
            tx_power := p.tx_power }) rest).2.2) := by
  unfold SetParameters setParametersCmd
  rw [if_neg (by omega)]
  rcases hq : cb s tx (setInst st i { getInst st i with
      advertising_event_properties := p.advertising_event_properties % 256
      tx_power := p.tx_power }) rest with ⟨a, b, ev⟩
  simp only [hu] at hq
  simp [hu, hq, getInst_setInst_self hlen]

/-- The post-`SetParameters` suffix of `StartAdvertising` runs the tail
chain to the user callback. -/
lemma saAfterParams_runsChain {c : SACreatorParams} {st : MgrState}
    (hi : c.inst_id < st.inst_count)
    (hu : (getInst st c.inst_id).in_use = true) :
    RunsChain c.inst_id (saAfterParams c) st
      (saTailChain c (getInst st c.inst_id)) (tagCont CbTag.user) := by
  have hE : RunsChain c.inst_id
      (Enable c.inst_id true (tagCont CbTag.user) c.timeout_s CbTag.userTimeout)
      st [HciCmd.enable true c.inst_id 0 0] (tagCont CbTag.user) :=
    enable_runsChain hi hu tagCont_cancel_projEq
  have hS : RunsChain c.inst_id
      (SetData c.inst_id true c.scan_response_data (sa_onScanRspData c)) st
      (fragCmds (SetDataAdvDataSender true) c.inst_id
        (setDataPreprocess (getInst st c.inst_id) true c.scan_response_data) ++
       [HciCmd.enable true c.inst_id 0 0])
      (tagCont CbTag.user) :=
    runsChain_comp
      (fun comps' => by simp [sa_onScanRspData])
      (fun s hs rest => projEq_of_eq (by simp [sa_onScanRspData, hs]))
      (setData_runsChain hi) hE
  have hA : RunsChain c.inst_id
      (SetData c.inst_id false c.advertise_data (sa_onAdvData c)) st
      (fragCmds (SetDataAdvDataSender false) c.inst_id
        (setDataPreprocess (getInst st c.inst_id) false c.advertise_data) ++
       (fragCmds (SetDataAdvDataSender true) c.inst_id
         (setDataPreprocess (getInst st c.inst_id) true c.scan_response_data) ++
        [HciCmd.enable true c.inst_id 0 0]))
      (tagCont CbTag.user) :=
    runsChain_comp
      (fun comps' => by simp [sa_onAdvData])
      (fun s hs rest => projEq_of_eq (by simp [sa_onAdvData, hs]))
      (setData_runsChain hi) hS
  have hR : RunsChain c.inst_id (saAfterParams c) st
      [HciCmd.setRandomAddress c.inst_id (getInst st c.inst_id).own_address]
      (sa_onSetRandomAddress c) := by
    apply emitAwait_runsChain
    intro comps
    rcases comps with - | ⟨⟨s, t⟩, rest⟩
    · rfl
    · rcases h : sa_onSetRandomAddress c s st rest with ⟨a, b, ev⟩
      simp [saAfterParams, h]
  have := runsChain_comp
    (fun comps' => by simp [sa_onSetRandomAddress])
    (fun s hs rest => projEq_of_eq (by simp [sa_onSetRandomAddress, hs]))
    hR hA
  rw [show saTailChain c (getInst st c.inst_id) =
    [HciCmd.setRandomAddress c.inst_id (getInst st c.inst_id).own_address] ++
      (fragCmds (SetDataAdvDataSender false) c.inst_id
        (setDataPreprocess (getInst st c.inst_id) false c.advertise_data) ++
       (fragCmds (SetDataAdvDataSender true) c.inst_id
         (setDataPreprocess (getInst st c.inst_id) true c.scan_response_data) ++
        [HciCmd.enable true c.inst_id 0 0])) from rfl]
  exact this

/-- Characterization of `StartAdvertising` on a valid, in-use
advertiser: the call behaves as the strictly ordered chain
SetParameters, SetRandomAddress, advertise-data fragments,
scan-response fragments, Enable(true), each command gated on a zero
completion status, with the first non-zero status (or the final zero)
delivered to the user callback. -/
lemma sa_chainsTo (c : SACreatorParams) (st0 : MgrState) (comps : Comps)
    (hi : c.inst_id < st0.inst_count) (hlen : c.inst_id < st0.adv_inst.length)
    (hu : (getInst st0 c.inst_id).in_use = true) :
    ChainsTo c.inst_id
      (StartAdvertising c.inst_id c.params c.advertise_data
        c.scan_response_data c.timeout_s)
      st0 (saChain c (getInst st0 c.inst_id) (comps.headD (0, 0)).2)
      (tagCont CbTag.user) comps := by
  have hSA : ∀ comps', StartAdvertising c.inst_id c.params c.advertise_data
      c.scan_response_data c.timeout_s st0 comps' =
      SetParameters c.inst_id c.params (sa_onSetParameters c) st0 comps' := by
    intro comps'
    rfl
  unfold ChainsTo saChain
  rcases comps with - | ⟨⟨s1, tx1⟩, rest⟩
  · rw [chainRun_cons_nil, hSA, setParameters_run_nil hi hlen hu]
    exact ⟨rfl, rfl, rfl, rfl⟩
  · rw [hSA, setParameters_run_cons hi hlen hu]
    by_cases hs1 : s1 = 0
    · subst hs1
      rw [show (((0, tx1) :: rest).headD (0, 0)).2 = tx1 from rfl]
      rw [chainRun_cons_cons, if_neg (by omega)]
      rw [show sa_onSetParameters c 0 tx1 (setInst st0 c.inst_id
          { getInst st0 c.inst_id with
            advertising_event_properties :=
              c.params.advertising_event_properties % 256
            tx_power := c.params.tx_power }) rest =
        saAfterParams c (setInst st0 c.inst_id
          (postParamsInst (getInst st0 c.inst_id) c.params tx1)) rest by
          rw [sa_onSetParameters_ok]
          rw [setInst_setInst]
          rw [getInst_setInst_self hlen]
          rfl]
      have hu2 : (getInst (setInst st0 c.inst_id
          (postParamsInst (getInst st0 c.inst_id) c.params tx1)) c.inst_id).in_use
          = true := by
        rw [getInst_setInst_self hlen]
        exact hu
      have Ht := @saAfterParams_runsChain c
        (setInst st0 c.inst_id
          (postParamsInst (getInst st0 c.inst_id) c.params tx1))
        (by rw [setInst_inst_count]; exact hi) hu2 rest
      unfold ChainsTo at Ht
      rw [getInst_setInst_self hlen] at Ht
      rcases hcr : chainRun
          (saTailChain c (postParamsInst (getInst st0 c.inst_id) c.params tx1))
          rest with ⟨issued, r⟩
      rw [hcr] at Ht
      rcases r with - | ⟨s2, rest2⟩
      · obtain ⟨h1, h2, h3, h4⟩ := Ht
        refine ⟨h1, ?_, h3, h4⟩
        rw [hciEvents_cons_hci, h2]
      · obtain ⟨h1, h2, h3, h4, h5⟩ := Ht
        refine ⟨?_, h2, ?_, h4, h5⟩
        · rw [h1]
          show instFlags (tagCont CbTag.user s2 _ rest2).1 c.inst_id =
            instFlags (tagCont CbTag.user s2 st0 rest2).1 c.inst_id
          show instFlags (setInst st0 c.inst_id
              (postParamsInst (getInst st0 c.inst_id) c.params tx1)) c.inst_id =
            instFlags st0 c.inst_id
          exact instFlags_setInst_preserve c.inst_id rfl rfl
        · rw [hciEvents_cons_hci, h3]
          rfl
    · rw [show (((s1, tx1) :: rest).headD (0, 0)).2 = tx1 from rfl]
      rw [chainRun_cons_cons, if_pos hs1]
      rw [show sa_onSetParameters c s1 tx1 (setInst st0 c.inst_id
          { getInst st0 c.inst_id with
            advertising_event_properties :=
              c.params.advertising_event_properties % 256
            tx_power := c.params.tx_power }) rest =
        tagCont CbTag.user s1 (setInst st0 c.inst_id
          { getInst st0 c.inst_id with
            advertising_event_properties :=
              c.params.advertising_event_properties % 256
            tx_power := c.params.tx_power }) rest by
          simp [sa_onSetParameters, hs1]]
      refine ⟨?_, rfl, rfl, rfl, rfl⟩
      show instFlags (setInst st0 c.inst_id
          { getInst st0 c.inst_id with
            advertising_event_properties :=
              c.params.advertising_event_properties % 256
            tx_power := c.params.tx_power }) c.inst_id =
        instFlags st0 c.inst_id
      exact instFlags_setInst_preserve c.inst_id rfl rfl


/-- Commands of the `StartAdvertisingSet` chain after `SetParameters`,
read off the instance record in force at that point, with the periodic
steps inserted before the final enable when requested. -/
def sasTailChain (c : CreatorParams) (pInst2 : AdvertisingInstance) :
    List HciCmd :=
  HciCmd.setRandomAddress c.inst_id pInst2.own_address ::
    (fragCmds (SetDataAdvDataSender false) c.inst_id
      (setDataPreprocess pInst2 false c.advertise_data) ++
     (fragCmds (SetDataAdvDataSender true) c.inst_id
       (setDataPreprocess pInst2 true c.scan_response_data) ++
      (if c.periodic_params.enable then
        HciCmd.setPeriodicAdvertisingParameters c.inst_id
            c.periodic_params.min_interval c.periodic_params.max_interval
            c.periodic_params.periodic_advertising_properties ::
          (fragCmds periodicDataSender c.inst_id c.periodic_data ++
           (HciCmd.setPeriodicAdvertisingEnable 1 c.inst_id ::
            [HciCmd.enable true c.inst_id 0 0]))
       else [HciCmd.enable true c.inst_id 0 0])))

/-- The full `StartAdvertisingSet` command chain after a successful
registration, given the post-registration instance and the granted TX
power of the first completion. -/
def sasChain (c : CreatorParams) (pInst : AdvertisingInstance)
    (tx1 : Int) : List HciCmd :=
  setParametersCmd c.inst_id c.params pInst ::
    sasTailChain c (postParamsInst pInst c.params tx1)

/-- The final continuation of the `StartAdvertisingSet` chain, with the
granted TX power and the expected allocation flags pinned: on failure
`Unregister(inst_id)` runs first, then the user callback gets
`(0, 0, status)`; on success the user callback gets
`(inst_id, tx_power, 0)` on the still-registered instance. -/
def sasDone (instId : Nat) (tx1 : Int) (raddrB : Bool) (s : Nat) : Step :=
  fun st comps =>
  if s ≠ 0 then
    let (st1, c1, evs1) := Unregister instId st comps
    (st1, c1, evs1 ++ [Event.cb CbTag.user [0, 0, (s : Int)]])
  else
    (setInst st instId { getInst st instId with
       in_use := true
       adv_raddr_timer_armed := raddrB }, comps,
     [Event.cb CbTag.user [(instId : Int), tx1, 0]])

/-- Tail of `StartAdvertisingSet` after a successful `SetParameters`
completion (the else-branch of the `SetParameters` lambda, at the state
with the granted TX power already stored). -/
def sasAfterParams (c : CreatorParams) : Step := fun st comps =>
  let rpa := (getInst st c.inst_id).own_address
  let ev := Event.hci (.setRandomAddress c.inst_id rpa)
  match comps with
  | [] => (st, [], [ev])
  | (s, _) :: rest =>
    let (st', c', evs) := sas_onSetRandomAddress c s st rest
    (st', c', ev :: evs)

lemma sas_onSetParameters_ok {c : CreatorParams} {tx : Int} {st : MgrState}
    {comps : Comps} :
    sas_onSetParameters c 0 tx st comps =
      sasAfterParams c
        (setInst st c.inst_id { getInst st c.inst_id with tx_power := tx })
        comps := by
  rfl

lemma unregister_projEq {i : Nat} {stA stB : MgrState} {rest : Comps}
    (hiA : i < stA.inst_count) (hiB : i < stB.inst_count)
    (hlA : i < stA.adv_inst.length) (hlB : i < stB.adv_inst.length) :
    projEq i (Unregister i stA rest) (Unregister i stB rest) := by
  unfold Unregister
  rw [if_neg (by omega), if_neg (by omega)]
  refine ⟨?_, rfl, rfl, rfl, rfl⟩
  unfold instFlags
  rw [getInst_setInst_self hlA, getInst_setInst_self hlB]

/-- Bridge from the final `sas_onEnable` continuation, run at the state
`stA` reached by the chain, to the pinned `sasDone` continuation at any
other in-bounds state. -/
lemma sasEnd_projEq {c : CreatorParams} {i : Nat} {t : Int} {b : Bool}
    {stA stB : MgrState} (hc : c.inst_id = i)
    (hiA : i < stA.inst_count) (hiB : i < stB.inst_count)
    (hlA : i < stA.adv_inst.length) (hlB : i < stB.adv_inst.length)
    (htx : (getInst stA i).tx_power = t)
    (hin : (getInst stA i).in_use = true)
    (hra : (getInst stA i).adv_raddr_timer_armed = b) :
    ∀ (s : Nat) (rest : Comps),
      projEq i (sas_onEnable c s stA rest) (sasDone i t b s stB rest) := by
  intro s rest
  subst hc
  by_cases hs : s = 0
  · subst hs
    have hA : sas_onEnable c 0 stA rest =
        (stA, rest, [Event.cb CbTag.user
          [(c.inst_id : Int), (getInst stA c.inst_id).tx_power, 0]]) := by
      simp [sas_onEnable]
    have hB : sasDone c.inst_id t b 0 stB rest =
        (setInst stB c.inst_id { getInst stB c.inst_id with
           in_use := true
           adv_raddr_timer_armed := b }, rest,
         [Event.cb CbTag.user [(c.inst_id : Int), t, 0]]) := by
      simp [sasDone]
    rw [hA, hB, htx]
    refine ⟨?_, rfl, rfl, rfl, rfl⟩
    unfold instFlags
    rw [getInst_setInst_self hlB]
    rw [hin, hra]
  · have hA : sas_onEnable c s stA rest =
        ((Unregister c.inst_id stA rest).1, (Unregister c.inst_id stA rest).2.1,
         (Unregister c.inst_id stA rest).2.2 ++
           [Event.cb CbTag.user [0, 0, (s : Int)]]) := by
      rcases hq : Unregister c.inst_id stA rest with ⟨a, b2, ev⟩
      simp [sas_onEnable, sas_fail, hs, hq]
    have hB : sasDone c.inst_id t b s stB rest =
        ((Unregister c.inst_id stB rest).1, (Unregister c.inst_id stB rest).2.1,
         (Unregister c.inst_id stB rest).2.2 ++
           [Event.cb CbTag.user [0, 0, (s : Int)]]) := by
      rcases hq : Unregister c.inst_id stB rest with ⟨a, b2, ev⟩
      simp [sasDone, hs, hq]
    rw [hA, hB]
    obtain ⟨u1, u2, u3, u4, u5⟩ :=
      @unregister_projEq c.inst_id stA stB rest hiA hiB hlA hlB
    refine ⟨u1, u2, ?_, ?_, ?_⟩
    · rw [hciEvents_append, hciEvents_append, u3]
    · rw [cbEvents_append, cbEvents_append, u4]
    · rw [lcEvents_append, lcEvents_append, u5]

/-- The timer-cancel state change before the final enable does not move
the projections of `sas_onEnable`. -/
lemma sas_onEnable_cancel_projEq {c : CreatorParams} {st : MgrState}
    (hi : c.inst_id < st.inst_count) (hlen : c.inst_id < st.adv_inst.length) :
    ∀ (s : Nat) (rest : Comps), projEq c.inst_id
      (sas_onEnable c s (setInst st c.inst_id
        { getInst st c.inst_id with timeout_timer := none }) rest)
      (sas_onEnable c s st rest) := by
  intro s rest
  by_cases hs : s = 0
  · subst hs
    have hA : ∀ (stX : MgrState), sas_onEnable c 0 stX rest =
        (stX, rest, [Event.cb CbTag.user
          [(c.inst_id : Int), (getInst stX c.inst_id).tx_power, 0]]) := by
      intro stX
      simp [sas_onEnable]
    rw [hA, hA]
    rw [getInst_setInst_self hlen]
    exact ⟨instFlags_setInst_preserve c.inst_id rfl rfl, rfl, rfl, rfl, rfl⟩
  · have hA : ∀ (stX : MgrState), sas_onEnable c s stX rest =
        ((Unregister c.inst_id stX rest).1, (Unregister c.inst_id stX rest).2.1,
         (Unregister c.inst_id stX rest).2.2 ++
           [Event.cb CbTag.user [0, 0, (s : Int)]]) := by
      intro stX
      rcases hq : Unregister c.inst_id stX rest with ⟨a, b2, ev⟩
      simp [sas_onEnable, sas_fail, hs, hq]
    rw [hA, hA]
    obtain ⟨u1, u2, u3, u4, u5⟩ :=
      @unregister_projEq c.inst_id
        (setInst st c.inst_id
          { getInst st c.inst_id with timeout_timer := none })
        st rest (by rw [setInst_inst_count]; exact hi) hi
        (by rw [setInst_length]; exact hlen) hlen
    refine ⟨u1, u2, ?_, ?_, ?_⟩
    · rw [hciEvents_append, hciEvents_append, u3]
    · rw [cbEvents_append, cbEvents_append, u4]
    · rw [lcEvents_append, lcEvents_append, u5]


/-- The post-`SetParameters` suffix of `StartAdvertisingSet` runs the
tail chain (with the periodic steps when requested) to `sas_onEnable`. -/
lemma sasAfterParams_runsChain {c : CreatorParams} {st : MgrState}
    (hi : c.inst_id < st.inst_count) (hlen : c.inst_id < st.adv_inst.length)
    (hu : (getInst st c.inst_id).in_use = true) :
    RunsChain c.inst_id (sasAfterParams c) st
      (sasTailChain c (getInst st c.inst_id)) (sas_onEnable c) := by
  have hF : RunsChain c.inst_id (StartAdvertisingSetFinish c) st
      [HciCmd.enable true c.inst_id 0 0] (sas_onEnable c) := by
    show RunsChain c.inst_id
      (Enable c.inst_id true (sas_onEnable c) c.timeout_s
        (CbTag.userRegisterBound c.inst_id)) st
      [HciCmd.enable true c.inst_id 0 0] (sas_onEnable c)
    exact enable_runsChain hi hu (sas_onEnable_cancel_projEq hi hlen)
  have hR : RunsChain c.inst_id (sasAfterParams c) st
      [HciCmd.setRandomAddress c.inst_id (getInst st c.inst_id).own_address]
      (sas_onSetRandomAddress c) := by
    apply emitAwait_runsChain
    intro comps
    rcases comps with - | ⟨⟨s, t⟩, rest⟩
    · rfl
    · rcases h : sas_onSetRandomAddress c s st rest with ⟨a, b, ev⟩
      simp [sasAfterParams, h]
  by_cases hper : c.periodic_params.enable
  · have hPE0 : RunsChain c.inst_id
        (SetPeriodicAdvertisingEnable c.inst_id 1 (sas_onPeriodicEnable c)) st
        [HciCmd.setPeriodicAdvertisingEnable 1 c.inst_id]
        (sas_onPeriodicEnable c) := by
      apply emitAwait_runsChain
      intro comps
      rcases comps with - | ⟨⟨s, t⟩, rest⟩
      · rfl
      · rcases h : sas_onPeriodicEnable c s st rest with ⟨a, b, ev⟩
        simp [SetPeriodicAdvertisingEnable, h]
    have hPE : RunsChain c.inst_id
        (SetPeriodicAdvertisingEnable c.inst_id 1 (sas_onPeriodicEnable c)) st
        ([HciCmd.setPeriodicAdvertisingEnable 1 c.inst_id] ++
         [HciCmd.enable true c.inst_id 0 0])
        (sas_onEnable c) :=
      runsChain_comp
        (fun comps' => by simp [sas_onPeriodicEnable, StartAdvertisingSetFinish])
        (fun s hs rest => projEq_of_eq
          (by simp [sas_onPeriodicEnable, sas_onEnable, hs]))
        hPE0 hF
    have hPD0 : RunsChain c.inst_id
        (SetPeriodicAdvertisingData c.inst_id c.periodic_data
          (sas_onPeriodicData c)) st
        (fragCmds periodicDataSender c.inst_id c.periodic_data)
        (sas_onPeriodicData c) := by
      show RunsChain c.inst_id
        (DivideAndSendData c.inst_id c.periodic_data (sas_onPeriodicData c)
          periodicDataSender) st
        (fragCmds periodicDataSender c.inst_id c.periodic_data)
        (sas_onPeriodicData c)
      exact divideAndSend_runsChain
    have hPD : RunsChain c.inst_id
        (SetPeriodicAdvertisingData c.inst_id c.periodic_data
          (sas_onPeriodicData c)) st
        (fragCmds periodicDataSender c.inst_id c.periodic_data ++
         ([HciCmd.setPeriodicAdvertisingEnable 1 c.inst_id] ++
          [HciCmd.enable true c.inst_id 0 0]))
        (sas_onEnable c) :=
      runsChain_comp
        (fun comps' => by simp [sas_onPeriodicData])
        (fun s hs rest => projEq_of_eq
          (by simp [sas_onPeriodicData, sas_onEnable, hs]))
        hPD0 hPE
    have hPP0 : RunsChain c.inst_id
        (StartAdvertisingSetPeriodicPart c) st
        [HciCmd.setPeriodicAdvertisingParameters c.inst_id
           c.periodic_params.min_interval c.periodic_params.max_interval
           c.periodic_params.periodic_advertising_properties]
        (sas_onPeriodicParams c) := by
      apply emitAwait_runsChain
      intro comps
      rcases comps with - | ⟨⟨s, t⟩, rest⟩
      · rfl
      · rcases h : sas_onPeriodicParams c s st rest with ⟨a, b, ev⟩
        simp [StartAdvertisingSetPeriodicPart,
          SetPeriodicAdvertisingParameters, h]
    have hPP : RunsChain c.inst_id
        (StartAdvertisingSetPeriodicPart c) st
        ([HciCmd.setPeriodicAdvertisingParameters c.inst_id
            c.periodic_params.min_interval c.periodic_params.max_interval
            c.periodic_params.periodic_advertising_properties] ++
         (fragCmds periodicDataSender c.inst_id c.periodic_data ++
          ([HciCmd.setPeriodicAdvertisingEnable 1 c.inst_id] ++
           [HciCmd.enable true c.inst_id 0 0])))
        (sas_onEnable c) :=
      runsChain_comp
        (fun comps' => by simp [sas_onPeriodicParams])
        (fun s hs rest => projEq_of_eq
          (by simp [sas_onPeriodicParams, sas_onEnable, hs]))
        hPP0 hPD
    have hS : RunsChain c.inst_id
        (SetData c.inst_id true c.scan_response_data (sas_onScanRspData c)) st
        (fragCmds (SetDataAdvDataSender true) c.inst_id
          (setDataPreprocess (getInst st c.inst_id) true c.scan_response_data) ++
         ([HciCmd.setPeriodicAdvertisingParameters c.inst_id
             c.periodic_params.min_interval c.periodic_params.max_interval
             c.periodic_params.periodic_advertising_properties] ++
          (fragCmds periodicDataSender c.inst_id c.periodic_data ++
           ([HciCmd.setPeriodicAdvertisingEnable 1 c.inst_id] ++
            [HciCmd.enable true c.inst_id 0 0]))))
        (sas_onEnable c) :=
      runsChain_comp
        (fun comps' => by simp [sas_onScanRspData, hper])
        (fun s hs rest => projEq_of_eq
          (by simp [sas_onScanRspData, sas_onEnable, hs]))
        (setData_runsChain hi) hPP
    have hA : RunsChain c.inst_id
        (SetData c.inst_id false c.advertise_data (sas_onAdvData c)) st
        (fragCmds (SetDataAdvDataSender false) c.inst_id
          (setDataPreprocess (getInst st c.inst_id) false c.advertise_data) ++
         (fragCmds (SetDataAdvDataSender true) c.inst_id
           (setDataPreprocess (getInst st c.inst_id) true
             c.scan_response_data) ++
          ([HciCmd.setPeriodicAdvertisingParameters c.inst_id
              c.periodic_params.min_interval c.periodic_params.max_interval
              c.periodic_params.periodic_advertising_properties] ++
           (fragCmds periodicDataSender c.inst_id c.periodic_data ++
            ([HciCmd.setPeriodicAdvertisingEnable 1 c.inst_id] ++
             [HciCmd.enable true c.inst_id 0 0])))))
        (sas_onEnable c) :=
      runsChain_comp
        (fun comps' => by simp [sas_onAdvData])
        (fun s hs rest => projEq_of_eq
          (by simp [sas_onAdvData, sas_onEnable, hs]))
        (setData_runsChain hi) hS
    have := runsChain_comp
      (fun comps' => by simp [sas_onSetRandomAddress])
      (fun s hs rest => projEq_of_eq
        (by simp [sas_onSetRandomAddress, sas_onEnable, hs]))
      hR hA
    rw [show sasTailChain c (getInst st c.inst_id) =
      [HciCmd.setRandomAddress c.inst_id (getInst st c.inst_id).own_address] ++
        (fragCmds (SetDataAdvDataSender false) c.inst_id
          (setDataPreprocess (getInst st c.inst_id) false c.advertise_data) ++
         (fragCmds (SetDataAdvDataSender true) c.inst_id
           (setDataPreprocess (getInst st c.inst_id) true
             c.scan_response_data) ++
          ([HciCmd.setPeriodicAdvertisingParameters c.inst_id
              c.periodic_params.min_interval c.periodic_params.max_interval
              c.periodic_params.periodic_advertising_properties] ++
           (fragCmds periodicDataSender c.inst_id c.periodic_data ++
            ([HciCmd.setPeriodicAdvertisingEnable 1 c.inst_id] ++
             [HciCmd.enable true c.inst_id 0 0])))))
      from by unfold sasTailChain; rw [if_pos hper]; rfl]
    exact this
  · have hS : RunsChain c.inst_id
        (SetData c.inst_id true c.scan_response_data (sas_onScanRspData c)) st
        (fragCmds (SetDataAdvDataSender true) c.inst_id
          (setDataPreprocess (getInst st c.inst_id) true c.scan_response_data) ++
         [HciCmd.enable true c.inst_id 0 0])
        (sas_onEnable c) :=
      runsChain_comp
        (fun comps' => by
          simp [sas_onScanRspData, hper, StartAdvertisingSetFinish])
        (fun s hs rest => projEq_of_eq
          (by simp [sas_onScanRspData, sas_onEnable, hs]))
        (setData_runsChain hi) hF
    have hA : RunsChain c.inst_id
        (SetData c.inst_id false c.advertise_data (sas_onAdvData c)) st
        (fragCmds (SetDataAdvDataSender false) c.inst_id
          (setDataPreprocess (getInst st c.inst_id) false c.advertise_data) ++
         (fragCmds (SetDataAdvDataSender true) c.inst_id
           (setDataPreprocess (getInst st c.inst_id) true
             c.scan_response_data) ++
          [HciCmd.enable true c.inst_id 0 0]))
        (sas_onEnable c) :=
      runsChain_comp
        (fun comps' => by simp [sas_onAdvData])
        (fun s hs rest => projEq_of_eq
          (by simp [sas_onAdvData, sas_onEnable, hs]))
        (setData_runsChain hi) hS
    have := runsChain_comp
      (fun comps' => by simp [sas_onSetRandomAddress])
      (fun s hs rest => projEq_of_eq
        (by simp [sas_onSetRandomAddress, sas_onEnable, hs]))
      hR hA
    rw [show sasTailChain c (getInst st c.inst_id) =
      [HciCmd.setRandomAddress c.inst_id (getInst st c.inst_id).own_address] ++
        (fragCmds (SetDataAdvDataSender false) c.inst_id
          (setDataPreprocess (getInst st c.inst_id) false c.advertise_data) ++
         (fragCmds (SetDataAdvDataSender true) c.inst_id
           (setDataPreprocess (getInst st c.inst_id) true
             c.scan_response_data) ++
          [HciCmd.enable true c.inst_id 0 0]))
      from by unfold sasTailChain; rw [if_neg hper]; rfl]
    exact this


/-- `sasDone`'s projections do not depend on the state it is run at, for
in-bounds instance ids. -/
lemma sasDone_state_projEq {i : Nat} {t : Int} {b : Bool} {stA stB : MgrState}
    (hiA : i < stA.inst_count) (hiB : i < stB.inst_count)
    (hlA : i < stA.adv_inst.length) (hlB : i < stB.adv_inst.length) :
    ∀ (s : Nat) (rest : Comps),
      projEq i (sasDone i t b s stA rest) (sasDone i t b s stB rest) := by
  intro s rest
  by_cases hs : s = 0
  · subst hs
    have hA : ∀ (stX : MgrState), sasDone i t b 0 stX rest =
        (setInst stX i { getInst stX i with
           in_use := true
           adv_raddr_timer_armed := b }, rest,
         [Event.cb CbTag.user [(i : Int), t, 0]]) := by
      intro stX
      simp [sasDone]
    rw [hA, hA]
    refine ⟨?_, rfl, rfl, rfl, rfl⟩
    unfold instFlags
    rw [getInst_setInst_self hlA, getInst_setInst_self hlB]
  · have hA : ∀ (stX : MgrState), sasDone i t b s stX rest =
        ((Unregister i stX rest).1, (Unregister i stX rest).2.1,
         (Unregister i stX rest).2.2 ++
           [Event.cb CbTag.user [0, 0, (s : Int)]]) := by
      intro stX
      rcases hq : Unregister i stX rest with ⟨a, b2, ev⟩
      simp [sasDone, hs, hq]
    rw [hA, hA]
    obtain ⟨u1, u2, u3, u4, u5⟩ :=
      @unregister_projEq i stA stB rest hiA hiB hlA hlB
    refine ⟨u1, u2, ?_, ?_, ?_⟩
    · rw [hciEvents_append, hciEvents_append, u3]
    · rw [cbEvents_append, cbEvents_append, u4]
    · rw [lcEvents_append, lcEvents_append, u5]

/-- Characterization of the `StartAdvertisingSet` chain from the
`SetParameters` step onwards, on the post-registration state. -/
lemma sas_params_chainsTo (c : CreatorParams) (st2 : MgrState) (comps : Comps)
    (hi : c.inst_id < st2.inst_count) (hlen : c.inst_id < st2.adv_inst.length)
    (hu : (getInst st2 c.inst_id).in_use = true) :
    ChainsTo c.inst_id
      (SetParameters c.inst_id c.params (sas_onSetParameters c)) st2
      (sasChain c (getInst st2 c.inst_id) (comps.headD (0, 0)).2)
      (sasDone c.inst_id (comps.headD (0, 0)).2
        (getInst st2 c.inst_id).adv_raddr_timer_armed) comps := by
  unfold ChainsTo sasChain
  rcases comps with - | ⟨⟨s1, tx1⟩, rest⟩
  · rw [chainRun_cons_nil, setParameters_run_nil hi hlen hu]
    exact ⟨rfl, rfl, rfl, rfl⟩
  · rw [setParameters_run_cons hi hlen hu]
    by_cases hs1 : s1 = 0
    · subst hs1
      rw [show (((0, tx1) :: rest).headD (0, 0)).2 = tx1 from rfl]
      rw [chainRun_cons_cons, if_neg (by omega)]
      rw [show sas_onSetParameters c 0 tx1 (setInst st2 c.inst_id
          { getInst st2 c.inst_id with
            advertising_event_properties :=
              c.params.advertising_event_properties % 256
            tx_power := c.params.tx_power }) rest =
        sasAfterParams c (setInst st2 c.inst_id
          (postParamsInst (getInst st2 c.inst_id) c.params tx1)) rest by
          rw [sas_onSetParameters_ok]
          rw [setInst_setInst]
          rw [getInst_setInst_self hlen]
          rfl]
      have hu4 : (getInst (setInst st2 c.inst_id
          (postParamsInst (getInst st2 c.inst_id) c.params tx1))
            c.inst_id).in_use = true := by
        rw [getInst_setInst_self hlen]
        exact hu
      have Ht := @sasAfterParams_runsChain c
        (setInst st2 c.inst_id
          (postParamsInst (getInst st2 c.inst_id) c.params tx1))
        (by rw [setInst_inst_count]; exact hi)
        (by rw [setInst_length]; exact hlen) hu4 rest
      unfold ChainsTo at Ht
      rw [getInst_setInst_self hlen] at Ht
      rcases hcr : chainRun
          (sasTailChain c (postParamsInst (getInst st2 c.inst_id) c.params tx1))
          rest with ⟨issued, r⟩
      rw [hcr] at Ht
      rcases r with - | ⟨s2, rest2⟩
      · obtain ⟨h1, h2, h3, h4⟩ := Ht
        refine ⟨h1, ?_, h3, h4⟩
        rw [hciEvents_cons_hci, h2]
      · obtain ⟨h1, h2, h3, h4, h5⟩ := Ht
        have hend := @sasEnd_projEq c c.inst_id
          tx1 ((getInst st2 c.inst_id).adv_raddr_timer_armed)
          (setInst st2 c.inst_id
            (postParamsInst (getInst st2 c.inst_id) c.params tx1))
          st2 rfl
          (by rw [setInst_inst_count]; exact hi) hi
          (by rw [setInst_length]; exact hlen) hlen
          (by rw [getInst_setInst_self hlen]; rfl)
          (by rw [getInst_setInst_self hlen]; exact hu)
          (by rw [getInst_setInst_self hlen]; rfl) s2 rest2
        obtain ⟨e1, e2, e3, e4, e5⟩ := hend
        refine ⟨h1.trans e1, h2.trans e2, ?_, h4.trans e4, h5.trans e5⟩
        rw [hciEvents_cons_hci, h3, e3]
        rfl
    · rw [show (((s1, tx1) :: rest).headD (0, 0)).2 = tx1 from rfl]
      rw [chainRun_cons_cons, if_pos hs1]
      rw [show sas_onSetParameters c s1 tx1 (setInst st2 c.inst_id
          { getInst st2 c.inst_id with
            advertising_event_properties :=
              c.params.advertising_event_properties % 256
            tx_power := c.params.tx_power }) rest =
        sas_fail c s1 (setInst st2 c.inst_id
          { getInst st2 c.inst_id with
            advertising_event_properties :=
              c.params.advertising_event_properties % 256
            tx_power := c.params.tx_power }) rest by
          simp [sas_onSetParameters, hs1]]
      have heq : sas_fail c s1 (setInst st2 c.inst_id
          { getInst st2 c.inst_id with
            advertising_event_properties :=
              c.params.advertising_event_properties % 256
            tx_power := c.params.tx_power }) rest =
          sasDone c.inst_id tx1
            (getInst st2 c.inst_id).adv_raddr_timer_armed s1
            (setInst st2 c.inst_id
              { getInst st2 c.inst_id with
                advertising_event_properties :=
                  c.params.advertising_event_properties % 256
                tx_power := c.params.tx_power }) rest := by
        rcases hq : Unregister c.inst_id (setInst st2 c.inst_id
            { getInst st2 c.inst_id with
              advertising_event_properties :=
                c.params.advertising_event_properties % 256
              tx_power := c.params.tx_power }) rest with ⟨a, b2, ev⟩
        simp [sas_fail, sasDone, hs1, hq]
      rw [heq]
      obtain ⟨e1, e2, e3, e4, e5⟩ := @sasDone_state_projEq
        c.inst_id tx1
        ((getInst st2 c.inst_id).adv_raddr_timer_armed)
        (setInst st2 c.inst_id
          { getInst st2 c.inst_id with
            advertising_event_properties :=
              c.params.advertising_event_properties % 256
            tx_power := c.params.tx_power })
        st2
        (by rw [setInst_inst_count]; exact hi) hi
        (by rw [setInst_length]; exact hlen) hlen s1 rest
      refine ⟨e1, e2, ?_, e4, e5⟩
      rw [hciEvents_cons_hci, e3]
      rfl


/-- Transport of a chain characterization across an equal run and a
projection-equal done continuation. -/
lemma chainsTo_transport {j : Nat} {f g : Step} {stF stG : MgrState}
    {cmds : List HciCmd} {d1 d2 : Nat → Step} {comps : Comps}
    (h : ChainsTo j f stF cmds d1 comps)
    (hfg : g stG comps = f stF comps)
    (hd : ∀ s rest, projEq j (d1 s stF rest) (d2 s stG rest)) :
    ChainsTo j g stG cmds d2 comps := by
  unfold ChainsTo at h ⊢
  rcases hcr : chainRun cmds comps with ⟨issued, r⟩
  rw [hcr] at h
  rcases r with - | ⟨s, rest⟩
  · rw [hfg]
    exact h
  · obtain ⟨m1, m2, m3, m4, m5⟩ := h
    obtain ⟨e1, e2, e3, e4, e5⟩ := hd s rest
    rw [hfg]
    exact ⟨m1.trans e1, m2.trans e2, by rw [m3, e3], m4.trans e4,
      m5.trans e5⟩

/-- Transport of a chain characterization across a run that only adds a
projection-neutral alarm event in front of the trace. -/
lemma chainsTo_raddr_transport {j : Nat} {f g : Step} {stF stG : MgrState}
    {cmds : List HciCmd} {d1 d2 : Nat → Step} {comps : Comps}
    {k : Nat} {p : Int}
    (h : ChainsTo j f stF cmds d1 comps)
    (hfg : g stG comps = ((f stF comps).1, (f stF comps).2.1,
      Event.alarmSetRaddr k p :: (f stF comps).2.2))
    (hd : ∀ s rest, projEq j (d1 s stF rest) (d2 s stG rest)) :
    ChainsTo j g stG cmds d2 comps := by
  unfold ChainsTo at h ⊢
  rcases hcr : chainRun cmds comps with ⟨issued, r⟩
  rw [hcr] at h
  rcases r with - | ⟨s, rest⟩
  · obtain ⟨m1, m2, m3, m4⟩ := h
    rw [hfg]
    exact ⟨m1, by rw [hciEvents_cons_setRaddr, m2],
      by rw [cbEvents_cons_setRaddr, m3],
      by rw [lcEvents_cons_setRaddr, m4]⟩
  · obtain ⟨m1, m2, m3, m4, m5⟩ := h
    obtain ⟨e1, e2, e3, e4, e5⟩ := hd s rest
    rw [hfg]
    exact ⟨m1.trans e1, m2.trans e2,
      by rw [hciEvents_cons_setRaddr, m3, e3],
      by rw [cbEvents_cons_setRaddr]; exact m4.trans e4,
      by rw [lcEvents_cons_setRaddr]; exact m5.trans e5⟩

/-- Characterization of `StartAdvertisingSet` (shared by C1/C2): after a
successful registration (in a configuration that runs the register
callback), the call behaves as the strictly ordered chain SetParameters,
SetRandomAddress, advertise-data fragments, scan-response fragments,
optional periodic steps, Enable(true), each command gated on a zero
completion status; the first non-zero status short-circuits into
`Unregister(inst_id)` followed by the user callback with `(0, 0, status)`,
and full success ends in the user callback with
`(inst_id, granted_tx_power, 0)`. -/
lemma sas_chainsTo (params : AdvParams) (advD srD : List Nat)
    (pp : PeriodicParams) (pd : List Nat) (ts : Int)
    (rand hashOut : List Nat) (st0 : MgrState) (comps : Comps)
    (i : Nat) (st2 : MgrState)
    (hro : registerOutcome st0 rand hashOut = some (i, st2))
    (hcfg : st0.cfg ≠ PrivacyConfig.sptPrivacyOff)
    (hi : i < st0.inst_count) (hlen : i < st0.adv_inst.length) :
    ChainsTo i
      (StartAdvertisingSet params advD srD pp pd ts rand hashOut) st0
      (sasChain
        { inst_id := i, params := params, advertise_data := advD,
          scan_response_data := srD, periodic_params := pp,
          periodic_data := pd, timeout_s := ts }
        (getInst st2 i) (comps.headD (0, 0)).2)
      (sasDone i (comps.headD (0, 0)).2
        (getInst st2 i).adv_raddr_timer_armed) comps := by
  obtain ⟨hL, hC, -, hU⟩ := registerOutcome_state hro
  have hi2 : i < st2.inst_count := by omega
  have hlen2 : i < st2.adv_inst.length := by omega
  have hu2 : (getInst st2 i).in_use = true := hU (by omega)
  have MID := sas_params_chainsTo
    { inst_id := i, params := params, advertise_data := advD,
      scan_response_data := srD, periodic_params := pp,
      periodic_data := pd, timeout_s := ts } st2 comps hi2 hlen2 hu2
  rcases hcfg0 : st0.cfg with - | - | -
  case sptPrivacyOff => exact absurd hcfg0 hcfg
  case noSpt =>
    refine chainsTo_transport MID ?_
      (fun s rest => sasDone_state_projEq hi2 hi hlen2 hlen s rest)
    show RegisterAdvertiser (sas_onRegister
      { inst_id := 0, params := params, advertise_data := advD,
        scan_response_data := srD, periodic_params := pp,
        periodic_data := pd, timeout_s := ts }) rand hashOut st0 comps = _
    rw [register_run_noSpt hcfg0 hro]
    rfl
  case sptPrivacyOn =>
    refine chainsTo_raddr_transport (k := i)
      (p := BTM_BLE_PRIVATE_ADDR_INT_MS) MID ?_
      (fun s rest => sasDone_state_projEq hi2 hi hlen2 hlen s rest)
    show RegisterAdvertiser (sas_onRegister
      { inst_id := 0, params := params, advertise_data := advD,
        scan_response_data := srD, periodic_params := pp,
        periodic_data := pd, timeout_s := ts }) rand hashOut st0 comps = _
    rw [register_run_privacyOn hcfg0 hro]
    rfl


/-- Concrete advertising parameters used to exercise the chains. -/
def advParamsW : AdvParams :=
  { advertising_event_properties := 0x13, adv_int_min := 0x20,
    adv_int_max := 0x40, channel_map := 7, adv_filter_policy := 0,
    tx_power := 9, primary_advertising_phy := 1,
    secondary_advertising_phy := 1, scan_request_notification_enable := 0 }

/-- Disabled periodic parameters. -/
def periodicOffW : PeriodicParams :=
  { enable := false, min_interval := 0, max_interval := 0,
    periodic_advertising_properties := 0 }

/-- One-slot manager without privacy support, slot registered. -/
def stInUseW : MgrState :=
  { cfg := PrivacyConfig.noSpt, controllerAddress := [1, 2, 3, 4, 5, 6],
    adv_inst := [{ initInstance 0 with in_use := true }], inst_count := 1 }

/-- One-slot manager without privacy support, slot free. -/
def stFreeW : MgrState :=
  { cfg := PrivacyConfig.noSpt, controllerAddress := [1, 2, 3, 4, 5, 6],
    adv_inst := [initInstance 0], inst_count := 1 }

/-- The state `RegisterAdvertiser` leaves `stFreeW` in. -/
def stRegW : MgrState :=
  { cfg := PrivacyConfig.noSpt, controllerAddress := [1, 2, 3, 4, 5, 6],
    adv_inst :=
      [{ inst_id := 0, in_use := true,
         advertising_event_properties := 0, adv_raddr_timer_armed := false,
         tx_power := 0, timeout_s := 0, timeout_timer := none,
         own_address_type := BLE_ADDR_PUBLIC,
         own_address := [1, 2, 3, 4, 5, 6] }], inst_count := 1 }

/-- **C2**: Both entry points are strictly ordered per-step chains.  For
every `StartAdvertising` call on a registered instance the run is
`ChainsTo` the chain SetParameters, SetRandomAddress, advertise-data
fragments, scan-response fragments, Enable(true): the HCI commands
issued on any completion sequence are exactly the `chainRun` prefix of
that chain, so each next command is issued only after the previous
command's completion is observed with status 0, the first non-zero
status stops the chain and is delivered to the user callback, and full
success delivers the final status 0.  `StartAdvertisingSet` obeys the
same strict ordering with Register first (any configuration that runs
the register callback) and the periodic steps inserted before
Enable(true) exactly when `periodic_params.enable` is set; its
short-circuit continuation is `sasDone`, which reports `(0, 0, status)`
after compensating, and its success callback gets
`(inst_id, granted_tx_power, 0)`. -/
theorem claim_C2 :
    (∀ (c : SACreatorParams) (st0 : MgrState) (comps : Comps),
      c.inst_id < st0.inst_count → c.inst_id < st0.adv_inst.length →
      (getInst st0 c.inst_id).in_use = true →
      ChainsTo c.inst_id
        (StartAdvertising c.inst_id c.params c.advertise_data
          c.scan_response_data c.timeout_s)
        st0 (saChain c (getInst st0 c.inst_id) (comps.headD (0, 0)).2)
        (tagCont CbTag.user) comps) ∧
    (∀ (params : AdvParams) (advD srD : List Nat) (pp : PeriodicParams)
      (pd : List Nat) (ts : Int) (rand hashOut : List Nat) (st0 : MgrState)
      (comps : Comps) (i : Nat) (st2 : MgrState),
      registerOutcome st0 rand hashOut = some (i, st2) →
      st0.cfg ≠ PrivacyConfig.sptPrivacyOff →
      i < st0.inst_count → i < st0.adv_inst.length →
      ChainsTo i
        (StartAdvertisingSet params advD srD pp pd ts rand hashOut) st0
        (sasChain
          { inst_id := i, params := params, advertise_data := advD,
            scan_response_data := srD, periodic_params := pp,
            periodic_data := pd, timeout_s := ts }
          (getInst st2 i) (comps.headD (0, 0)).2)
        (sasDone i (comps.headD (0, 0)).2
          (getInst st2 i).adv_raddr_timer_armed) comps) :=
  ⟨sa_chainsTo, sas_chainsTo⟩

/-- Witness for C2 on concrete one-slot managers. -/
theorem claim_C2_witness :
    (ChainsTo 0 (StartAdvertising 0 advParamsW [] [] 0) stInUseW
      (saChain
        { inst_id := 0, params := advParamsW, advertise_data := [],
          scan_response_data := [], timeout_s := 0 }
        (getInst stInUseW 0) (([] : Comps).headD (0, 0)).2)
      (tagCont CbTag.user) []) ∧
    (ChainsTo 0
      (StartAdvertisingSet advParamsW [] [] periodicOffW [] 0 [] []) stFreeW
      (sasChain
        { inst_id := 0, params := advParamsW, advertise_data := [],
          scan_response_data := [], periodic_params := periodicOffW,
          periodic_data := [], timeout_s := 0 }
        (getInst stRegW 0) (([] : Comps).headD (0, 0)).2)
      (sasDone 0 (([] : Comps).headD (0, 0)).2
        (getInst stRegW 0).adv_raddr_timer_armed) []) :=
  ⟨claim_C2.1
      { inst_id := 0, params := advParamsW, advertise_data := [],
        scan_response_data := [], timeout_s := 0 } stInUseW []
      (by decide) (by decide) (by decide),
   claim_C2.2 advParamsW [] [] periodicOffW [] 0 [] [] stFreeW [] 0 stRegW
      (by decide) (by decide) (by decide) (by decide)⟩

/-- **C1 (amended)**: For every `StartAdvertisingSet` call in which
registration succeeds but a later chain step completes with a non-zero
status, `Unregister(inst_id)` is invoked before the user callback is run
with `(0, 0, status)` (the compensation-relevant trace is exactly the
`Unregister` marker followed by that callback), the instance is left
with `in_use = false` and its RPA rotation timer cancelled, and the
issued HCI commands are the chain prefix up to the failing step followed
by `Unregister`'s fire-and-forget disable.  The final table state is
*not* in general the pre-call state (see the counterexample): only the
allocation flags are compensated. -/
theorem claim_C1_amended :
    ∀ (params : AdvParams) (advD srD : List Nat) (pp : PeriodicParams)
      (pd : List Nat) (ts : Int) (rand hashOut : List Nat) (st0 : MgrState)
      (zs : Comps) (s : Nat) (t : Int) (rest : Comps) (i : Nat)
      (st2 : MgrState),
      registerOutcome st0 rand hashOut = some (i, st2) →
      st0.cfg ≠ PrivacyConfig.sptPrivacyOff →
      i < st0.inst_count → i < st0.adv_inst.length →
      allZeroSt zs → s ≠ 0 →
      zs.length < (sasChain
        { inst_id := i, params := params,
          advertise_data := advD, scan_response_data := srD,
          periodic_params := pp, periodic_data := pd, timeout_s := ts }
        (getInst st2 i) ((zs ++ (s, t) :: rest).headD (0, 0)).2).length →
      (StartAdvertisingSet params advD srD pp pd ts rand hashOut
          st0 (zs ++ (s, t) :: rest)).2.1 = rest ∧
      lcEvents (StartAdvertisingSet params advD srD pp pd ts rand hashOut
          st0 (zs ++ (s, t) :: rest)).2.2 =
        [Event.unregisterCalled i, Event.cb CbTag.user [0, 0, (s : Int)]] ∧
      (getInst (StartAdvertisingSet params advD srD pp pd ts rand hashOut
          st0 (zs ++ (s, t) :: rest)).1 i).in_use = false ∧
      (getInst (StartAdvertisingSet params advD srD pp pd ts rand hashOut
          st0 (zs ++ (s, t) :: rest)).1 i).adv_raddr_timer_armed = false ∧
      hciEvents (StartAdvertisingSet params advD srD pp pd ts rand hashOut
          st0 (zs ++ (s, t) :: rest)).2.2 =
        ((sasChain
          { inst_id := i, params := params,
            advertise_data := advD, scan_response_data := srD,
            periodic_params := pp, periodic_data := pd, timeout_s := ts }
          (getInst st2 i)
          ((zs ++ (s, t) :: rest).headD (0, 0)).2).take (zs.length + 1)) ++
          [HciCmd.enable false i 0 0] := by
  intro params advD srD pp pd ts rand hashOut st0 zs s t rest i st2
    hro hcfg hi hlen hz hs hlt
  have H := sas_chainsTo params advD srD pp pd ts rand hashOut st0
    (zs ++ (s, t) :: rest) i st2 hro hcfg hi hlen
  unfold ChainsTo at H
  rw [chainRun_fail _ zs s t rest hz hs hlt] at H
  obtain ⟨h1, h2, h3, h4, h5⟩ := H
  have hUn : Unregister i st0 rest =
      (setInst st0 i { getInst st0 i with
         adv_raddr_timer_armed := false, in_use := false }, rest,
       [Event.unregisterCalled i,
        Event.hci (HciCmd.enable false i 0x00 0x00),
        Event.alarmCancelRaddr i]) := by
    unfold Unregister
    rw [if_neg (by omega)]
  have hD : sasDone i ((zs ++ (s, t) :: rest).headD (0, 0)).2
      (getInst st2 i).adv_raddr_timer_armed s st0 rest =
      (setInst st0 i { getInst st0 i with
         adv_raddr_timer_armed := false, in_use := false }, rest,
       [Event.unregisterCalled i,
        Event.hci (HciCmd.enable false i 0x00 0x00),
        Event.alarmCancelRaddr i,
        Event.cb CbTag.user [0, 0, (s : Int)]]) := by
    simp [sasDone, hs, hUn]
  rw [hD] at h1 h2 h3 h4 h5
  have hflag : instFlags (setInst st0 i { getInst st0 i with
      adv_raddr_timer_armed := false, in_use := false }) i =
      (false, false) := by
    unfold instFlags
    rw [getInst_setInst_self hlen]
  refine ⟨h2, ?_, ?_, ?_, ?_⟩
  · rw [h5]
    rfl
  · exact congrArg Prod.fst (h1.trans hflag)
  · exact congrArg Prod.snd (h1.trans hflag)
  · rw [h3]
    rfl

/-- Witness for the amended C1: a `SetParameters` completion with status
1 on a freshly registered one-slot manager. -/
theorem claim_C1_witness :
    (StartAdvertisingSet advParamsW [] [] periodicOffW [] 0 [] []
        stFreeW [(1, 5)]).2.1 = [] ∧
    lcEvents (StartAdvertisingSet advParamsW [] [] periodicOffW [] 0 [] []
        stFreeW [(1, 5)]).2.2 =
      [Event.unregisterCalled 0, Event.cb CbTag.user [0, 0, 1]] ∧
    (getInst (StartAdvertisingSet advParamsW [] [] periodicOffW [] 0 [] []
        stFreeW [(1, 5)]).1 0).in_use = false ∧
    (getInst (StartAdvertisingSet advParamsW [] [] periodicOffW [] 0 [] []
        stFreeW [(1, 5)]).1 0).adv_raddr_timer_armed = false ∧
    hciEvents (StartAdvertisingSet advParamsW [] [] periodicOffW [] 0 [] []
        stFreeW [(1, 5)]).2.2 =
      ((sasChain
        { inst_id := 0, params := advParamsW,
          advertise_data := [], scan_response_data := [],
          periodic_params := periodicOffW, periodic_data := [],
          timeout_s := 0 }
        (getInst stRegW 0)
        (([(1, 5)] : Comps).headD (0, 0)).2).take 1) ++
        [HciCmd.enable false 0 0 0] :=
  claim_C1_amended advParamsW [] [] periodicOffW [] 0 [] [] stFreeW
    [] 1 5 [] 0 stRegW (by decide) (by decide) (by decide) (by decide)
    (by decide) (by decide) (by decide)

/-- Counterexample to C1's restoration part: a `StartAdvertisingSet`
whose `SetParameters` completes with status 1 ends, after the
compensating `Unregister`, in a table state different from the pre-call
state (the controller address copied into `own_address` by the
registration survives). -/
theorem claim_C1_counterexample :
    ¬((StartAdvertisingSet advParamsW [] [] periodicOffW [] 0 [] []
        stFreeW [(1, 5)]).1 = stFreeW) := by
  decide

end BtmBleMultiAdv
